import Mathlib

/-!
Shallow embedding of the in-memory messaging engine of `websocket_logic.py`
(doklab_messenger).  Connections are numbers; WebSocket sends are collected
as a list of `(Dest, Event)` pairs instead of being performed; the external
collaborators (PostgreSQL identity store, the base64 library, the wall
clock) are oracle fields of an `Env` record.  Python dicts become
association lists that keep insertion order, python sets become
duplicate-free lists, and python string primitives (`strip`, `sorted`,
`startswith`, `split`) are re-implemented over character lists so that
every definition evaluates inside the kernel.
-/

namespace Doklab

abbrev Conn := Nat

/-- Python whitespace codepoints stripped by `str.strip()`. -/
def WS_CODES : List Nat := [32, 9, 10, 13, 11, 12]

/-- Python `str.strip()`. -/
def pystrip (s : String) : String :=
  let l := (s.data.dropWhile (fun c => c.toNat ∈ WS_CODES)).reverse
  String.mk ((l.dropWhile (fun c => c.toNat ∈ WS_CODES)).reverse)

/-- Lexicographic comparison of character lists by codepoint, python `<`. -/
def cmpChars : List Char → List Char → Ordering
  | [], [] => .eq
  | [], _ :: _ => .lt
  | _ :: _, [] => .gt
  | a :: as, b :: bs =>
    if a.toNat < b.toNat then .lt
    else if b.toNat < a.toNat then .gt
    else cmpChars as bs

/-- Python `a < b` on strings. -/
def pylt (a b : String) : Bool := cmpChars a.data b.data == .lt

/-- Python `sorted([a, b])`. -/
def sorted2 (a b : String) : String × String := if pylt b a then (b, a) else (a, b)

/-- Python `s.startswith(p)`. -/
def startswith (p s : String) : Bool := List.isPrefixOf p.data s.data

/-- Python `s.split(d, 1)` when it yields two parts, `none` otherwise. -/
def splitFirstAux (d : Char) : List Char → Option (List Char × List Char)
  | [] => none
  | c :: cs =>
    if c == d then some ([], cs)
    else
      match splitFirstAux d cs with
      | some (l, r) => some (c :: l, r)
      | none => none

/-- Stable insertion into an ascending list, helper for `sortStrings`. -/
def insertSorted (x : String) : List String → List String
  | [] => [x]
  | y :: ys => if pylt y x then y :: insertSorted x ys else x :: y :: ys

/-- Python `sorted(xs)` on strings. -/
def sortStrings (xs : List String) : List String := xs.foldr insertSorted []

/-- A history record (the python message dict).  `sender` is the python
key `"from"` and `tag` the python key `"type"`; text records keep
`name`/`mime`/`data` as `""` and `size` as `0`, matching absent keys. -/
structure Rec where
  id : Nat
  room : String
  sender : String
  text : String
  name : String
  mime : String
  size : Int
  data : String
  ts : Nat
  reply_to : Option Int
  edited : Bool
  deleted : Bool
  kind : String
  tag : String
  deriving Repr, DecidableEq

/-- A room info dict:
`{owner, public, avatar, members, invited, history, seq, last_read}`. -/
structure RoomInfo where
  owner : String
  isPublic : Bool
  avatar : Option String
  members : List String
  invited : List String
  history : List Rec
  seq : Nat
  last_read : List (String × Int)
  deriving Repr, DecidableEq

/-- A `STATE` entry: `{username, current_room}`. -/
structure Session where
  username : Option String
  current_room : Option String
  deriving Repr, DecidableEq

/-- The module-level shared state: `ONLINE`, `ROOMS`, `STATE`
(`ONLINE_BY_USER` is recomputed from `online`, see `online_by_user`). -/
structure ServerState where
  online : List (Conn × String)
  rooms : List (String × RoomInfo)
  state : List (Conn × Session)
  deriving Repr, DecidableEq

/-- The dict built by `room_item_for`; `isPublic` is the python key `"public"`. -/
structure RoomItem where
  name : String
  room : String
  isPublic : Bool
  owner : String
  avatar : Option String
  title : String
  dm : Bool
  deriving Repr, DecidableEq

/-- Outbound event payloads.  `presence` carries `(name, status)` pairs,
`message` carries a normalized history record. -/
inductive Event where
  | error (text : String)
  | auth_ok (user : String)
  | rooms (items : List RoomItem)
  | room_created (item : RoomItem)
  | joined (room : String)
  | history (room : String) (items : List Rec)
  | room_info (item : RoomItem)
  | presence (room : Option String) (users : List (String × String))
  | invited (room user : String)
  | room_renamed (old : String) (new : String) (item : RoomItem)
  | room_avatar (room : String) (avatar : Option String)
  | room_deleted (room : String)
  | read (room user : String) (up_to : Int)
  | typing (room sender : String)
  | edited (room : String) (id : Int) (text : String) (edited : Bool)
  | deleted (room : String) (id : Int)
  | message (record : Rec)
  deriving Repr, DecidableEq

/-- Where an outbound event is sent: `_send`, `_send_to_user`, or
`_broadcast_to_room`. -/
inductive Dest where
  | toConn (ws : Conn)
  | toUser (user : String)
  | toRoom (room : String) (exclude : Option Conn)
  deriving Repr, DecidableEq

abbrev Sends := List (Dest × Event)

/-- External collaborators: identity store success oracles
(`_db_register` / `_db_login`), the base64 validator
(`base64.b64decode(·, validate=True)` succeeding), and `int(time.time())`. -/
structure Env where
  db_register_ok : String → String → Bool
  db_login_ok : String → String → Bool
  b64_valid : String → Bool
  now : Nat

/-- Inbound envelopes, one constructor per handled `type` discriminant;
`other` is any other envelope.  Fields are `Option`s because the handler
reads them with `obj.get`. -/
inductive ClientMsg where
  | register (username password : Option String)
  | login (username password : Option String)
  | list_rooms
  | dm_open (user : Option String)
  | create_room (room : Option String) (isPublic : Bool)
  | join (room : Option String)
  | room_info (room : Option String)
  | invite (room user : Option String)
  | rename_room (room title : Option String)
  | set_room_avatar (room avatar : Option String)
  | delete_room (room : Option String)
  | mark_read (room : Option String) (up_to : Option Int)
  | text (room text : Option String) (reply_to : Option Int)
  | file (room name mime data : Option String) (size : Option Int) (reply_to : Option Int)
  | typing (room : Option String)
  | edit_msg (room : Option String) (id : Option Int) (text : Option String)
  | delete_msg (room : Option String) (id : Option Int)
  | other
  deriving Repr, DecidableEq

-- ------------------------- dict / set helpers -------------------------

/-- Python `set.add`: no duplicates, insertion order kept. -/
def addMem (x : String) (xs : List String) : List String :=
  if x ∈ xs then xs else xs ++ [x]

/-- Python `dict.setdefault k v` on `last_read`. -/
def setdefault (k : String) (v : Int) (m : List (String × Int)) : List (String × Int) :=
  if m.any (fun p => p.1 == k) then m else m ++ [(k, v)]

/-- Python `dict.get k d` on `last_read`. -/
def lookupD (m : List (String × Int)) (k : String) (d : Int) : Int :=
  match m.find? (fun p => p.1 == k) with
  | some p => p.2
  | none => d

/-- Python `dict[k] = v` on `last_read`: overwrite in place or append. -/
def setKey (k : String) (v : Int) : List (String × Int) → List (String × Int)
  | [] => [(k, v)]
  | (k', v') :: rest => if k' == k then (k', v) :: rest else (k', v') :: setKey k v rest

/-- Python `ROOMS.get(name)`. -/
def getRoom (rooms : List (String × RoomInfo)) (name : String) : Option RoomInfo :=
  (rooms.find? (fun p => p.1 == name)).map (fun p => p.2)

/-- Python `ROOMS[name] = info`: overwrite in place or append. -/
def setRoom (name : String) (info : RoomInfo) : List (String × RoomInfo) → List (String × RoomInfo)
  | [] => [(name, info)]
  | (n, i) :: rest => if n == name then (n, info) :: rest else (n, i) :: setRoom name info rest

/-- Python `ROOMS.pop(name)`. -/
def popRoom (name : String) (rooms : List (String × RoomInfo)) : List (String × RoomInfo) :=
  rooms.eraseP (fun p => p.1 == name)

/-- Python `STATE.get(ws)`. -/
def getSession (s : ServerState) (ws : Conn) : Option Session :=
  (s.state.find? (fun p => p.1 == ws)).map (fun p => p.2)

/-- Python `STATE[ws] = sess`. -/
def setSession (ws : Conn) (sess : Session) : List (Conn × Session) → List (Conn × Session)
  | [] => [(ws, sess)]
  | (w, s) :: rest => if w == ws then (w, sess) :: rest else (w, s) :: setSession ws sess rest

/-- Python `ONLINE[ws] = u`. -/
def setOnline (ws : Conn) (u : String) : List (Conn × String) → List (Conn × String)
  | [] => [(ws, u)]
  | (w, v) :: rest => if w == ws then (w, u) :: rest else (w, v) :: setOnline ws u rest

/-- Python `ONLINE.values()`. -/
def online_users (s : ServerState) : List String := s.online.map (fun p => p.2)

/-- Python `ONLINE_BY_USER.get(u)` non-empty: `u` has a live connection. -/
def user_online (s : ServerState) (u : String) : Bool := s.online.any (fun p => p.2 == u)

-- ------------------------- constants -------------------------

/-- `MAX_BYTES = 100 * 1024 * 1024`. -/
def MAX_BYTES : Int := 100 * 1024 * 1024

/-- `HISTORY_LIMIT = 400`. -/
def HISTORY_LIMIT : Nat := 400

-- ------------------------- rooms / history -------------------------

/-- The fresh info dict built inside `ensure_room`. -/
def emptyRoom (owner : String) : RoomInfo :=
  { owner := owner, isPublic := true, avatar := none, members := [], invited := [],
    history := [], seq := 0, last_read := [] }

/-- `ensure_room(name, owner)`: the info found or created, and the updated map. -/
def ensure_room (rooms : List (String × RoomInfo)) (name owner : String) :
    RoomInfo × List (String × RoomInfo) :=
  match getRoom rooms name with
  | some info => (info, rooms)
  | none => (emptyRoom owner, setRoom name (emptyRoom owner) rooms)

/-- `add_history(room, record)`: append, then evict the oldest entries
beyond `HISTORY_LIMIT`. -/
def add_history (room : String) (record : Rec) (rooms : List (String × RoomInfo)) :
    List (String × RoomInfo) :=
  match getRoom rooms room with
  | none => rooms
  | some info =>
    let h := info.history ++ [record]
    let h := if h.length > HISTORY_LIMIT then h.drop (h.length - HISTORY_LIMIT) else h
    setRoom room { info with history := h } rooms

/-- `next_id(room)`: the issued id and the updated map. -/
def next_id (room : String) (rooms : List (String × RoomInfo)) :
    Nat × List (String × RoomInfo) :=
  match getRoom rooms room with
  | none => (0, rooms)
  | some info => (info.seq + 1, setRoom room { info with seq := info.seq + 1 } rooms)

/-- `normalize_record_for_client(rec)` (the `replyTo`/`reply_to` mirroring
and the `reactions` default are identities in this embedding). -/
def normalize_record_for_client (now : Nat) (r : Rec) : Rec :=
  let r := if r.tag == "" then { r with tag := if r.kind == "" then "text" else r.kind } else r
  if r.ts == 0 then { r with ts := now } else r

/-- `get_history_items(room)`. -/
def get_history_items (now : Nat) (rooms : List (String × RoomInfo)) (room : String) :
    List Rec :=
  match getRoom rooms room with
  | none => []
  | some info => info.history.map (normalize_record_for_client now)

/-- `find_message(room, msg_id)`: first record whose id matches. -/
def find_message (rooms : List (String × RoomInfo)) (room : String) (msg_id : Int) :
    Option Rec :=
  match getRoom rooms room with
  | none => none
  | some info => info.history.find? (fun r => (r.id : Int) == msg_id)

/-- Replace the first record satisfying the predicate (the python code
mutates the dict returned by `find_message` in place). -/
def update_first (p : Rec → Bool) (f : Rec → Rec) : List Rec → List Rec
  | [] => []
  | r :: rest => if p r then f r :: rest else r :: update_first p f rest

/-- In-place mutation of the record `find_message` returns. -/
def update_message (room : String) (msg_id : Int) (f : Rec → Rec)
    (rooms : List (String × RoomInfo)) : List (String × RoomInfo) :=
  match getRoom rooms room with
  | none => rooms
  | some info =>
    setRoom room
      { info with history := update_first (fun r => (r.id : Int) == msg_id) f info.history }
      rooms

/-- `is_admin(room, username)`. -/
def is_admin (rooms : List (String × RoomInfo)) (room username : String) : Bool :=
  match getRoom rooms room with
  | some info => info.owner == username
  | none => false

/-- `is_dm_room(room)`. -/
def is_dm_room (room : String) : Bool := startswith "dm:" room

/-- `dm_room_id(a, b)`. -/
def dm_room_id (a b : String) : String :=
  let a := pystrip a
  let b := pystrip b
  let p := sorted2 a b
  "dm:" ++ p.1 ++ "|" ++ p.2

/-- `dm_other(room, me)`. -/
def dm_other (room me : String) : Option String :=
  if is_dm_room room then
    match splitFirstAux '|' (room.data.drop 3) with
    | some (l, r) =>
      let u1 := String.mk l
      let u2 := String.mk r
      if me == u1 then some u2 else if me == u2 then some u1 else none
    | none => none
  else none

/-- `room_item_for(requester, room, info)`; `other or room` uses python
falsiness, so an empty counterpart falls back to the room name. -/
def room_item_for (requester room : String) (info : RoomInfo) : RoomItem :=
  if is_dm_room room then
    let other :=
      match dm_other room requester with
      | some o => if o == "" then room else o
      | none => room
    { name := room, room := room, isPublic := false, owner := info.owner,
      avatar := info.avatar, title := other, dm := true }
  else
    { name := room, room := room, isPublic := info.isPublic, owner := info.owner,
      avatar := info.avatar, title := room, dm := false }

/-- `_safe_b64_len(data_b64)`. -/
def safe_b64_len (data_b64 : String) : Nat := (data_b64.length * 3) / 4

-- ------------------------- sending -------------------------

/-- `_send_to_user(user, payload)`: delivered only if the user has a live
connection. -/
def send_to_user (s : ServerState) (u : String) (ev : Event) : Sends :=
  if user_online s u then [(Dest.toUser u, ev)] else []

/-- `_broadcast_to_room(room, obj, exclude)`: nothing if the room does not
exist. -/
def broadcast_to_room (rooms : List (String × RoomInfo)) (room : String)
    (exclude : Option Conn) (ev : Event) : Sends :=
  match getRoom rooms room with
  | none => []
  | some _ => [(Dest.toRoom room exclude, ev)]

/-- `ensure_dm_membership(room, sender)`; `if other:` uses python
falsiness, so an empty counterpart is not added. -/
def ensure_dm_membership (s : ServerState) (room sender : String) :
    ServerState × Sends :=
  if is_dm_room room then
    let info0 :=
      match getRoom s.rooms room with
      | some i => i
      | none => { emptyRoom "system" with isPublic := false }
    let info1 := { info0 with
      members := addMem sender info0.members,
      last_read := setdefault sender 0 info0.last_read }
    match dm_other room sender with
    | some o =>
      if o == "" then ({ s with rooms := setRoom room info1 s.rooms }, [])
      else
        let info2 := { info1 with
          members := addMem o info1.members,
          last_read := setdefault o 0 info1.last_read }
        ({ s with rooms := setRoom room info2 s.rooms },
          send_to_user s o (Event.room_created (room_item_for o room info2)))
    | none => ({ s with rooms := setRoom room info1 s.rooms }, [])
  else (s, [])

/-- `push_presence(room)`. -/
def push_presence (s : ServerState) (room : Option String) : Sends :=
  let online_set := online_users s
  match room with
  | some r =>
    match getRoom s.rooms r with
    | none => []
    | some info =>
      let users := (sortStrings info.members).map
        (fun u => (u, if u ∈ online_set then "online" else "offline"))
      broadcast_to_room s.rooms r none (Event.presence (some r) users)
  | none =>
    let users := (sortStrings online_set.dedup).map (fun u => (u, "online"))
    s.online.map (fun p => (Dest.toConn p.1, Event.presence none users))

-- ------------------------- message handlers -------------------------

/-- One error reply to the calling connection. -/
def errTo (ws : Conn) (msg : String) : Sends := [(Dest.toConn ws, Event.error msg)]

/-- The legacy DM fallback shared verbatim by the `text` and `file`
handlers: a `room` value that is neither a DM id nor an existing room is
treated as a target username. -/
def dm_fallback (ws : Conn) (s : ServerState) (username room : String) :
    String × ServerState × Sends :=
  if !(is_dm_room room) && (getRoom s.rooms room).isNone then
    if room != "" && room != username then
      let room1 := dm_room_id username room
      let p := ensure_dm_membership s room1 username
      let evs2 :=
        match getRoom p.1.rooms room1 with
        | some info_dm =>
          [(Dest.toConn ws, Event.room_created (room_item_for username room1 info_dm))]
        | none => []
      (room1, p.1, p.2 ++ evs2)
    else (room, s, [])
  else (room, s, [])

/-- The `list_rooms` handler. -/
def handle_list_rooms (ws : Conn) (s : ServerState) (username : String) :
    ServerState × Sends :=
  let visible := s.rooms.filterMap (fun p =>
    if p.2.isPublic ∨ username ∈ p.2.members ∨ username ∈ p.2.invited then
      if is_dm_room p.1 ∧ username ∉ p.2.members then none
      else some (room_item_for username p.1 p.2)
    else none)
  (s, [(Dest.toConn ws, Event.rooms visible)])

/-- The `dm_open` handler. -/
def handle_dm_open (env : Env) (ws : Conn) (s : ServerState) (st : Session)
    (username : String) (userArg : Option String) : ServerState × Sends :=
  let target := pystrip (userArg.getD "")
  if target == "" then (s, errTo ws "Не указан пользователь")
  else if target == username then (s, errTo ws "Нельзя писать самому себе")
  else
    let room := dm_room_id username target
    let info0 :=
      match getRoom s.rooms room with
      | some i => i
      | none => { emptyRoom "system" with isPublic := false }
    let info := { info0 with
      members := addMem target (addMem username info0.members),
      last_read := setdefault target 0 (setdefault username 0 info0.last_read) }
    let rooms1 := setRoom room info s.rooms
    let s1 := { s with rooms := rooms1,
                       state := setSession ws { st with current_room := some room } s.state }
    (s1,
      [(Dest.toConn ws, Event.room_created (room_item_for username room info)),
       (Dest.toConn ws, Event.joined room),
       (Dest.toConn ws, Event.history room (get_history_items env.now rooms1 room)),
       (Dest.toConn ws, Event.room_info (room_item_for username room info))]
      ++ push_presence s1 (some room)
      ++ send_to_user s1 target (Event.room_created (room_item_for target room info)))

/-- The `create_room` handler. -/
def handle_create_room (ws : Conn) (s : ServerState) (username : String)
    (roomArg : Option String) (is_public : Bool) : ServerState × Sends :=
  let room := pystrip (roomArg.getD "")
  if room == "" then (s, errTo ws "Название комнаты обязательно")
  else if (getRoom s.rooms room).isSome then (s, errTo ws "Комната уже существует")
  else
    let info := { emptyRoom username with
      isPublic := is_public,
      members := addMem username [],
      last_read := setdefault username 0 [] }
    let rooms1 := setRoom room info s.rooms
    let s1 := { s with rooms := rooms1 }
    (s1, [(Dest.toConn ws, Event.room_created (room_item_for username room info))]
      ++ push_presence s1 (some room))

/-- The tail shared by the two `join` success branches: store the updated
info, set the current room, reply `joined`/`history`/`room_info`, push
presence. -/
def join_finish (env : Env) (ws : Conn) (s : ServerState) (st : Session)
    (username room : String) (info1 : RoomInfo) : ServerState × Sends :=
  let rooms1 := setRoom room info1 s.rooms
  let s1 := { s with rooms := rooms1,
                     state := setSession ws { st with current_room := some room } s.state }
  (s1,
    [(Dest.toConn ws, Event.joined room),
     (Dest.toConn ws, Event.history room (get_history_items env.now rooms1 room)),
     (Dest.toConn ws, Event.room_info (room_item_for username room info1))]
    ++ push_presence s1 (some room))

/-- The `join` handler. -/
def handle_join (env : Env) (ws : Conn) (s : ServerState) (st : Session)
    (username : String) (roomArg : Option String) : ServerState × Sends :=
  let room := pystrip (roomArg.getD "")
  match getRoom s.rooms room with
  | none => (s, errTo ws "Нет такой комнаты")
  | some info =>
    if is_dm_room room then
      match dm_other room username with
      | none => (s, errTo ws "Нет доступа к личному чату")
      | some o =>
        let info1 := { info with
          members := addMem username (addMem o info.members),
          last_read := setdefault username 0 (setdefault o 0 info.last_read) }
        join_finish env ws s st username room info1
    else
      if ¬info.isPublic ∧ username ∉ info.invited ∧ username ≠ info.owner then
        (s, errTo ws "Комната приватная, нужен инвайт")
      else
        join_finish env ws s st username room
          { info with members := addMem username info.members,
                      last_read := setdefault username 0 info.last_read }

/-- The `room_info` handler. -/
def handle_room_info (ws : Conn) (s : ServerState) (username : String)
    (roomArg : Option String) : ServerState × Sends :=
  let room := pystrip (roomArg.getD "")
  match getRoom s.rooms room with
  | none => (s, errTo ws "Нет такой комнаты")
  | some info =>
    if is_dm_room room then
      if (dm_other room username).isNone then (s, errTo ws "Нет доступа к личному чату")
      else (s, [(Dest.toConn ws, Event.room_info (room_item_for username room info))])
    else
      if ¬info.isPublic ∧ username ∉ info.members ∧ username ∉ info.invited then
        (s, errTo ws "Нет доступа к комнате")
      else (s, [(Dest.toConn ws, Event.room_info (room_item_for username room info))])

/-- The `invite` handler. -/
def handle_invite (ws : Conn) (s : ServerState) (username : String)
    (roomArg userArg : Option String) : ServerState × Sends :=
  let room := pystrip (roomArg.getD "")
  let target := pystrip (userArg.getD "")
  match getRoom s.rooms room with
  | none => (s, errTo ws "Нет такой комнаты")
  | some info =>
    if is_dm_room room then (s, errTo ws "В личные чаты нельзя приглашать")
    else if info.owner ≠ username then (s, errTo ws "Только администратор может приглашать")
    else if target == "" then (s, errTo ws "Кого приглашать?")
    else
      ({ s with rooms := setRoom room { info with invited := addMem target info.invited } s.rooms },
        [(Dest.toConn ws, Event.invited room target)])

/-- The `rename_room` handler. -/
def handle_rename_room (ws : Conn) (s : ServerState) (username : String)
    (roomArg titleArg : Option String) : ServerState × Sends :=
  let room := pystrip (roomArg.getD "")
  let new_title := pystrip (titleArg.getD "")
  if room == "" || new_title == "" then (s, errTo ws "room и title обязательны")
  else
    match getRoom s.rooms room with
    | none => (s, errTo ws "Нет такой комнаты")
    | some info =>
      if is_dm_room room then (s, errTo ws "Личный чат нельзя переименовать")
      else if (getRoom s.rooms new_title).isSome then
        (s, errTo ws "Комната с таким именем уже существует")
      else if ¬ is_admin s.rooms room username then
        (s, errTo ws "Только администратор может менять название")
      else
        let info1 := { info with history := info.history.map (fun r => { r with room := new_title }) }
        let rooms1 := setRoom new_title info1 (popRoom room s.rooms)
        ({ s with rooms := rooms1 },
          broadcast_to_room rooms1 new_title none
            (Event.room_renamed room new_title (room_item_for username new_title info1)))

/-- The `set_room_avatar` handler. -/
def handle_set_room_avatar (ws : Conn) (s : ServerState) (username : String)
    (roomArg avatarArg : Option String) : ServerState × Sends :=
  let room := pystrip (roomArg.getD "")
  match getRoom s.rooms room with
  | none => (s, errTo ws "Нет такой комнаты")
  | some info =>
    if is_dm_room room then (s, errTo ws "В личном чате нет аватара беседы")
    else if ¬ is_admin s.rooms room username then
      (s, errTo ws "Только администратор может менять аватар")
    else
      let ok := fun (av : Option String) =>
        let rooms1 := setRoom room { info with avatar := av } s.rooms
        (({ s with rooms := rooms1 } : ServerState),
          broadcast_to_room rooms1 room none (Event.room_avatar room av))
      match avatarArg with
      | some a =>
        if ¬ startswith "data:" a then (s, errTo ws "avatar должен быть dataURL или null")
        else ok (some a)
      | none => ok none

/-- The `delete_room` handler: the broadcast goes out before the pop. -/
def handle_delete_room (ws : Conn) (s : ServerState) (username : String)
    (roomArg : Option String) : ServerState × Sends :=
  let room := pystrip (roomArg.getD "")
  match getRoom s.rooms room with
  | none => (s, errTo ws "Нет такой комнаты")
  | some _ =>
    if is_dm_room room then (s, errTo ws "Личный чат нельзя удалить как беседу")
    else if ¬ is_admin s.rooms room username then
      (s, errTo ws "Только администратор может удалить беседу")
    else
      ({ s with rooms := popRoom room s.rooms },
        broadcast_to_room s.rooms room none (Event.room_deleted room))

/-- The `mark_read` handler: unknown room or non-member returns silently;
`int(up_to or 0)` becomes `getD 0`. -/
def handle_mark_read (s : ServerState) (username : String)
    (roomArg : Option String) (up_toArg : Option Int) : ServerState × Sends :=
  let room := pystrip (roomArg.getD "")
  match getRoom s.rooms room with
  | none => (s, [])
  | some info =>
    if username ∉ info.members then (s, [])
    else
      let up_to : Int := up_toArg.getD 0
      let prev : Int := lookupD info.last_read username 0
      if up_to > prev then
        let rooms1 := setRoom room { info with last_read := setKey username up_to info.last_read } s.rooms
        ({ s with rooms := rooms1 },
          broadcast_to_room rooms1 room none (Event.read room username up_to))
      else (s, [])

/-- The `text` handler. -/
def handle_text (env : Env) (ws : Conn) (s : ServerState) (username : String)
    (roomArg textArg : Option String) (reply_to : Option Int) : ServerState × Sends :=
  let room0 := pystrip (roomArg.getD "")
  let text := pystrip (textArg.getD "")
  if room0 == "" || text == "" then (s, errTo ws "Комната и текст обязательны")
  else
    let fb := dm_fallback ws s username room0
    let room := fb.1
    let s1 := fb.2.1
    let evsA := fb.2.2
    let p2 := if is_dm_room room then ensure_dm_membership s1 room username else (s1, [])
    let s2 := p2.1
    let evsB := p2.2
    match getRoom s2.rooms room with
    | none => (s2, evsA ++ evsB ++ errTo ws "Нет доступа к комнате")
    | some info =>
      if username ∉ info.members then (s2, evsA ++ evsB ++ errTo ws "Нет доступа к комнате")
      else
        let q := next_id room s2.rooms
        let record : Rec :=
          { id := q.1, room := room, sender := username, text := text,
            name := "", mime := "", size := 0, data := "", ts := env.now,
            reply_to := reply_to, edited := false, deleted := false,
            kind := "text", tag := "text" }
        let rooms4 := add_history room record q.2
        ({ s2 with rooms := rooms4 },
          evsA ++ evsB ++
            broadcast_to_room rooms4 room none
              (Event.message (normalize_record_for_client env.now record)))

/-- `ALLOWED_PREFIXES = ("image/", "video/")`. -/
def ALLOWED_PREFIXES : List String := ["image/", "video/"]

/-- The `file` handler: mime allow-list, then double size check, then
base64 validation, then the same send path as `text`. -/
def handle_file (env : Env) (ws : Conn) (s : ServerState) (username : String)
    (roomArg nameArg mimeArg dataArg : Option String) (sizeArg : Option Int)
    (reply_to : Option Int) : ServerState × Sends :=
  let room0 := pystrip (roomArg.getD "")
  let name := pystrip (if (nameArg.getD "") == "" then "file" else nameArg.getD "")
  let mime := pystrip (mimeArg.getD "")
  let data_b64 := dataArg.getD ""
  if room0 == "" || mime == "" || data_b64 == "" then
    (s, errTo ws "room, mime, data обязательны для файла")
  else
    let fb := dm_fallback ws s username room0
    let room := fb.1
    let s1 := fb.2.1
    let evsA := fb.2.2
    let p2 := if is_dm_room room then ensure_dm_membership s1 room username else (s1, [])
    let s2 := p2.1
    let evsB := p2.2
    match getRoom s2.rooms room with
    | none => (s2, evsA ++ evsB ++ errTo ws "Нет доступа к комнате")
    | some info =>
      if username ∉ info.members then (s2, evsA ++ evsB ++ errTo ws "Нет доступа к комнате")
      else if ¬ ALLOWED_PREFIXES.any (fun p => startswith p mime) then
        (s2, evsA ++ evsB ++ errTo ws "Разрешены только изображения и видео")
      else
        let declared : Option Int := sizeArg
        let decoded_est : Int := (safe_b64_len data_b64 : Nat)
        let real_size : Int := declared.getD decoded_est
        if real_size > MAX_BYTES || decoded_est > MAX_BYTES then
          (s2, evsA ++ evsB ++ errTo ws "Файл больше 100 МБ")
        else if ¬ env.b64_valid data_b64 then
          (s2, evsA ++ evsB ++ errTo ws "Некорректные данные файла")
        else
          let q := next_id room s2.rooms
          let record : Rec :=
            { id := q.1, room := room, sender := username,
              text := "", name := name, mime := mime, size := real_size, data := data_b64,
              ts := env.now, reply_to := reply_to, edited := false, deleted := false,
              kind := "file", tag := "file" }
          let rooms4 := add_history room record q.2
          ({ s2 with rooms := rooms4 },
            evsA ++ evsB ++
              broadcast_to_room rooms4 room none
                (Event.message (normalize_record_for_client env.now record)))

/-- The `typing` handler: silent when the room is unknown or the caller is
not a member. -/
def handle_typing (s : ServerState) (username : String) (roomArg : Option String) :
    ServerState × Sends :=
  let room := pystrip (roomArg.getD "")
  match getRoom s.rooms room with
  | some info =>
    if username ∈ info.members then
      (s, broadcast_to_room s.rooms room none (Event.typing room username))
    else (s, [])
  | none => (s, [])

/-- The `edit_msg` handler. -/
def handle_edit_msg (ws : Conn) (s : ServerState) (username : String)
    (roomArg : Option String) (idArg : Option Int) (textArg : Option String) :
    ServerState × Sends :=
  let room := pystrip (roomArg.getD "")
  let new_text := pystrip (textArg.getD "")
  match idArg with
  | none => (s, errTo ws "Не указан room или id")
  | some msg_id =>
    if room == "" then (s, errTo ws "Не указан room или id")
    else
      match getRoom s.rooms room with
      | none => (s, errTo ws "Нет доступа к комнате")
      | some info =>
        if username ∉ info.members then (s, errTo ws "Нет доступа к комнате")
        else
          match find_message s.rooms room msg_id with
          | none => (s, errTo ws "Сообщение не найдено")
          | some record =>
            if record.sender ≠ username then
              (s, errTo ws "Можно редактировать только свои сообщения")
            else if record.deleted then
              (s, errTo ws "Нельзя редактировать удалённое сообщение")
            else if record.tag ≠ "text" then
              (s, errTo ws "Редактировать можно только текстовые сообщения")
            else
              let rooms1 := update_message room msg_id
                (fun r => { r with text := new_text, edited := true }) s.rooms
              ({ s with rooms := rooms1 },
                broadcast_to_room rooms1 room none
                  (Event.edited room msg_id new_text true))

/-- The `delete_msg` handler. -/
def handle_delete_msg (ws : Conn) (s : ServerState) (username : String)
    (roomArg : Option String) (idArg : Option Int) : ServerState × Sends :=
  let room := pystrip (roomArg.getD "")
  match idArg with
  | none => (s, errTo ws "Не указан room или id")
  | some msg_id =>
    if room == "" then (s, errTo ws "Не указан room или id")
    else
      match getRoom s.rooms room with
      | none => (s, errTo ws "Нет доступа к комнате")
      | some info =>
        if username ∉ info.members then (s, errTo ws "Нет доступа к комнате")
        else
          match find_message s.rooms room msg_id with
          | none => (s, errTo ws "Сообщение не найдено")
          | some record =>
            if record.sender ≠ username ∧ ¬ is_admin s.rooms room username then
              (s, errTo ws "Можно удалять только свои сообщения (или быть админом беседы)")
            else
              let rooms1 := update_message room msg_id
                (fun r => { r with deleted := true, text := "", name := "", data := "" }) s.rooms
              ({ s with rooms := rooms1 },
                broadcast_to_room rooms1 room none (Event.deleted room msg_id))

/-- One `register`/`login` attempt against the identity-store oracle. -/
def handle_auth_attempt (dbOk : String → String → Bool) (failText : String)
    (ws : Conn) (s : ServerState) (st : Session)
    (usernameArg passwordArg : Option String) : ServerState × Sends :=
  let u := pystrip (usernameArg.getD "")
  let p := pystrip (passwordArg.getD "")
  if u == "" || p == "" then (s, errTo ws "Имя и пароль обязательны")
  else if !(dbOk u p) then (s, errTo ws failText)
  else
    ({ s with online := setOnline ws u s.online,
              state := setSession ws { st with username := some u } s.state },
      [(Dest.toConn ws, Event.auth_ok u)])

/-- Dispatch for an unauthenticated session: only `register`/`login` are
handled, everything else demands auth. -/
def handle_unauth (env : Env) (ws : Conn) (s : ServerState) (st : Session) :
    ClientMsg → ServerState × Sends
  | .register username password =>
    handle_auth_attempt env.db_register_ok "Имя занято" ws s st username password
  | .login username password =>
    handle_auth_attempt env.db_login_ok "Неверное имя или пароль" ws s st username password
  | _ => (s, errTo ws "Сначала нужно /login или /register")

/-- Dispatch for an authenticated session (the `if t == ...` chain;
`register`/`login` fall through to the unknown-type error). -/
def handle_authed (env : Env) (ws : Conn) (s : ServerState) (st : Session)
    (username : String) : ClientMsg → ServerState × Sends
  | .list_rooms => handle_list_rooms ws s username
  | .dm_open user => handle_dm_open env ws s st username user
  | .create_room room isPublic => handle_create_room ws s username room isPublic
  | .join room => handle_join env ws s st username room
  | .room_info room => handle_room_info ws s username room
  | .invite room user => handle_invite ws s username room user
  | .rename_room room title => handle_rename_room ws s username room title
  | .set_room_avatar room avatar => handle_set_room_avatar ws s username room avatar
  | .delete_room room => handle_delete_room ws s username room
  | .mark_read room up_to => handle_mark_read s username room up_to
  | .text room text reply_to => handle_text env ws s username room text reply_to
  | .file room name mime data size reply_to =>
    handle_file env ws s username room name mime data size reply_to
  | .typing room => handle_typing s username room
  | .edit_msg room id text => handle_edit_msg ws s username room id text
  | .delete_msg room id => handle_delete_msg ws s username room id
  | _ => (s, errTo ws "Неизвестный тип сообщения")

/-- `handle_ws_message(ws, obj)`: session bootstrap, the auth gate, then
the authenticated dispatch. -/
def handle_ws_message (env : Env) (ws : Conn) (s : ServerState) (m : ClientMsg) :
    ServerState × Sends :=
  let p : ServerState × Session :=
    match getSession s ws with
    | some st => (s, st)
    | none =>
      let st : Session := { username := none, current_room := none }
      ({ s with state := s.state ++ [(ws, st)] }, st)
  match p.2.username with
  | none => handle_unauth env ws p.1 p.2 m
  | some username => handle_authed env ws p.1 p.2 username m

/-- An `error` event occurs among the replies. -/
def hasError (evs : Sends) : Bool :=
  evs.any (fun p => match p.2 with | Event.error _ => true | _ => false)

-- ------------------------- interleaved room operations (for C3) -------------------------

/-- An interleaving of id issuances and history appends against one room. -/
inductive RoomOp where
  | issue
  | append (record : Rec)
  deriving Repr, DecidableEq

/-- Run a sequence of `next_id` / `add_history` calls against `room`,
collecting the issued ids in order. -/
def run_room_ops (room : String) :
    List RoomOp → List (String × RoomInfo) → List (String × RoomInfo) × List Nat
  | [], rooms => (rooms, [])
  | .issue :: ops, rooms =>
    let p := next_id room rooms
    let q := run_room_ops room ops p.2
    (q.1, p.1 :: q.2)
  | .append r :: ops, rooms => run_room_ops room ops (add_history room r rooms)

/-- Number of `issue` operations. -/
def countIssues : List RoomOp → Nat
  | [] => 0
  | .issue :: ops => countIssues ops + 1
  | .append _ :: ops => countIssues ops

-- ------------------------- basic string lemmas -------------------------

theorem char_eq_of_toNat_eq {a b : Char} (h : a.toNat = b.toNat) : a = b := by
  have hv : a.val = b.val := by
    apply UInt32.ext
    simpa [Char.toNat] using h
  exact Char.ext hv

theorem string_eq_of_data_eq {a b : String} (h : a.data = b.data) : a = b := by
  cases a; cases b; simp_all

theorem eq_of_cmpChars_eq : ∀ {x y : List Char}, cmpChars x y = .eq → x = y
  | [], [], _ => rfl
  | [], _ :: _, h => by simp [cmpChars] at h
  | _ :: _, [], h => by simp [cmpChars] at h
  | a :: as, b :: bs, h => by
    by_cases h1 : a.toNat < b.toNat
    · simp [cmpChars, h1] at h
    · by_cases h2 : b.toNat < a.toNat
      · simp [cmpChars, h1, h2] at h
      · have hab : a = b :=
          char_eq_of_toNat_eq (Nat.le_antisymm (Nat.le_of_not_lt h2) (Nat.le_of_not_lt h1))
        simp only [cmpChars, if_neg h1, if_neg h2] at h
        rw [hab, eq_of_cmpChars_eq h]

theorem cmpChars_swap : ∀ (x y : List Char), cmpChars y x = (cmpChars x y).swap
  | [], [] => rfl
  | [], _ :: _ => rfl
  | _ :: _, [] => rfl
  | a :: as, b :: bs => by
    by_cases h1 : a.toNat < b.toNat
    · have h2 : ¬ b.toNat < a.toNat := Nat.lt_asymm h1
      simp [cmpChars, h1, h2, Ordering.swap]
    · by_cases h2 : b.toNat < a.toNat
      · simp [cmpChars, h1, h2, Ordering.swap]
      · simp [cmpChars, h1, h2, Ordering.swap, cmpChars_swap as bs]

theorem sorted2_comm (a b : String) : sorted2 a b = sorted2 b a := by
  cases ho : cmpChars a.data b.data with
  | lt =>
    have hba : cmpChars b.data a.data = .gt := by
      rw [cmpChars_swap a.data b.data, ho]; rfl
    simp only [sorted2, pylt, ho, hba]
    rfl
  | gt =>
    have hba : cmpChars b.data a.data = .lt := by
      rw [cmpChars_swap a.data b.data, ho]; rfl
    simp only [sorted2, pylt, ho, hba]
    rfl
  | eq =>
    have hab : a = b := string_eq_of_data_eq (eq_of_cmpChars_eq ho)
    rw [hab]

/-- C5: the DM room identity is order-independent —
`dm_room_id(a, b) = dm_room_id(b, a)` for all username pairs, the id being
the two stripped usernames sorted lexicographically and joined with the
fixed delimiter. -/
theorem dm_room_id_symm (a b : String) : dm_room_id a b = dm_room_id b a := by
  show "dm:" ++ (sorted2 (pystrip a) (pystrip b)).1 ++ "|" ++ (sorted2 (pystrip a) (pystrip b)).2
      = "dm:" ++ (sorted2 (pystrip b) (pystrip a)).1 ++ "|" ++ (sorted2 (pystrip b) (pystrip a)).2
  rw [sorted2_comm]

-- ------------------------- assoc-list lemmas -------------------------

theorem getRoom_setRoom_self (name : String) (info : RoomInfo) :
    ∀ rooms, getRoom (setRoom name info rooms) name = some info := by
  intro rooms
  induction rooms with
  | nil => simp [getRoom, setRoom]
  | cons p rest ih =>
    obtain ⟨n, i⟩ := p
    rcases hn : n == name with _ | _
    · simp only [setRoom, hn, Bool.false_eq_true, if_false]
      simpa [getRoom, List.find?_cons, hn] using ih
    · simp [getRoom, setRoom, hn]

theorem next_id_existing {rooms : List (String × RoomInfo)} {room : String} {info : RoomInfo}
    (h : getRoom rooms room = some info) :
    next_id room rooms = (info.seq + 1, setRoom room { info with seq := info.seq + 1 } rooms) := by
  simp [next_id, h]

theorem add_history_existing {rooms : List (String × RoomInfo)} {room : String}
    {info : RoomInfo} (h : getRoom rooms room = some info) (record : Rec) :
    add_history room record rooms
      = setRoom room
          { info with history :=
              if (info.history ++ [record]).length > HISTORY_LIMIT
              then (info.history ++ [record]).drop ((info.history ++ [record]).length - HISTORY_LIMIT)
              else info.history ++ [record] }
          rooms := by
  simp [add_history, h]

theorem run_room_ops_ids (room : String) :
    ∀ (ops : List RoomOp) (rooms : List (String × RoomInfo)) (info : RoomInfo),
      getRoom rooms room = some info →
      (run_room_ops room ops rooms).2
        = (List.range (countIssues ops)).map (fun i => info.seq + i + 1)
  | [], rooms, info, h => by simp [run_room_ops, countIssues]
  | .issue :: ops, rooms, info, h => by
    have hnext := next_id_existing h
    have hget : getRoom (setRoom room { info with seq := info.seq + 1 } rooms) room
        = some { info with seq := info.seq + 1 } := getRoom_setRoom_self room _ rooms
    have ih := run_room_ops_ids room ops _ _ hget
    simp only [run_room_ops, hnext, ih, countIssues]
    rw [List.range_succ_eq_map]
    simp only [List.map_cons, List.map_map]
    congr 1
    exact List.map_congr_left (fun i _ => by simp [Function.comp]; omega)
  | .append r :: ops, rooms, info, h => by
    have hadd := add_history_existing h r
    have hget : getRoom (add_history room r rooms) room
        = some { info with history :=
            if (info.history ++ [r]).length > HISTORY_LIMIT
            then (info.history ++ [r]).drop ((info.history ++ [r]).length - HISTORY_LIMIT)
            else info.history ++ [r] } := by
      rw [hadd]; exact getRoom_setRoom_self room _ rooms
    have ih := run_room_ops_ids room ops _ _ hget
    simp only [run_room_ops, ih, countIssues]

/-- C3: for a room present in the store, every interleaving of `next_id`
calls and (possibly evicting) `add_history` appends issues a pairwise
strictly increasing, duplicate-free sequence of ids, all above the current
`seq`: each `next_id` on an existing room returns a value strictly greater
than every previously issued value, and no id is ever issued twice, even
after eviction has removed the record that carried it. -/
theorem next_id_strictly_increasing (room : String) (ops : List RoomOp)
    (rooms : List (String × RoomInfo)) (info : RoomInfo)
    (h : getRoom rooms room = some info) :
    List.Pairwise (· < ·) (run_room_ops room ops rooms).2 ∧
      (run_room_ops room ops rooms).2.Nodup ∧
      ∀ i ∈ (run_room_ops room ops rooms).2, info.seq < i := by
  rw [run_room_ops_ids room ops rooms info h]
  have hp : List.Pairwise (· < ·)
      ((List.range (countIssues ops)).map (fun i => info.seq + i + 1)) :=
    List.Pairwise.map _ (fun a b hab => by omega) (List.pairwise_lt_range (countIssues ops))
  refine ⟨hp, hp.imp (fun hlt => Nat.ne_of_lt hlt), ?_⟩
  intro i hi
  obtain ⟨j, hj, rfl⟩ := List.mem_map.mp hi
  omega

/-- A concrete record used by witnesses. -/
def recW : Rec :=
  { id := 1, room := "r", sender := "alice", text := "hi", name := "", mime := "", size := 0,
    data := "", ts := 1, reply_to := none, edited := false, deleted := false,
    kind := "text", tag := "text" }

theorem next_id_strictly_increasing_witness :
    List.Pairwise (· < ·)
        (run_room_ops "r" [RoomOp.issue, RoomOp.append recW, RoomOp.issue]
          [("r", emptyRoom "alice")]).2 ∧
      (run_room_ops "r" [RoomOp.issue, RoomOp.append recW, RoomOp.issue]
          [("r", emptyRoom "alice")]).2.Nodup ∧
      ∀ i ∈ (run_room_ops "r" [RoomOp.issue, RoomOp.append recW, RoomOp.issue]
          [("r", emptyRoom "alice")]).2, (emptyRoom "alice").seq < i :=
  next_id_strictly_increasing "r" _ _ (emptyRoom "alice") (by decide)

-- ------------------------- C4: bounded history -------------------------

/-- Info of the scenario room `"general"` with history `H` and counter `k`. -/
def genRoom (H : List Rec) (k : Nat) : RoomInfo :=
  { owner := "alice", isPublic := true, avatar := none, members := ["alice"], invited := [],
    history := H, seq := k, last_read := [("alice", 0)] }

/-- Server state holding only the scenario room, with alice connected. -/
def genState (H : List Rec) (k : Nat) : ServerState :=
  { online := [(0, "alice")], rooms := [("general", genRoom H k)],
    state := [(0, { username := some "alice", current_room := none })] }

/-- The record created by the k-th (0-based) `"hi"` text message. -/
def hiRec (now k : Nat) : Rec :=
  { id := k + 1, room := "general", sender := "alice", text := "hi", name := "", mime := "",
    size := 0, data := "", ts := now, reply_to := none, edited := false, deleted := false,
    kind := "text", tag := "text" }

/-- Send the same text message `n` times through the dispatcher. -/
def iterate_texts (env : Env) (ws : Conn) (room msg : String) : Nat → ServerState → ServerState
  | 0, s => s
  | n+1, s =>
    (handle_ws_message env ws (iterate_texts env ws room msg n s)
      (ClientMsg.text (some room) (some msg) none)).1

/-- The expected history after `n` sends: records of all `n` messages,
oldest evicted beyond the limit. -/
def evalHist (now n : Nat) : List Rec :=
  ((List.range n).map (hiRec now)).drop (n - HISTORY_LIMIT)

theorem text_step (env : Env) (H : List Rec) (k : Nat) :
    (handle_ws_message env 0 (genState H k)
        (ClientMsg.text (some "general") (some "hi") none)).1
      = genState
          (if (H ++ [hiRec env.now k]).length > HISTORY_LIMIT
           then (H ++ [hiRec env.now k]).drop ((H ++ [hiRec env.now k]).length - HISTORY_LIMIT)
           else H ++ [hiRec env.now k]) (k + 1) := by
  have e1 : pystrip "general" = "general" := by decide
  have e2 : pystrip "hi" = "hi" := by decide
  have e3 : is_dm_room "general" = false := by decide
  have e4 : ("general" == "") = false := by decide
  have e5 : ("hi" == "") = false := by decide
  simp [handle_ws_message, getSession, genState, genRoom, handle_authed, handle_text,
    dm_fallback, getRoom, next_id, add_history, setRoom, broadcast_to_room,
    e1, e2, e3, e4, e5, hiRec, List.find?]

theorem HISTORY_LIMIT_eq : HISTORY_LIMIT = 400 := rfl

theorem evalHist_length (now n : Nat) : (evalHist now n).length = min n HISTORY_LIMIT := by
  simp only [evalHist, List.length_drop, List.length_map, List.length_range, HISTORY_LIMIT_eq]
  omega

theorem evalHist_step (now n : Nat) :
    (if (evalHist now n ++ [hiRec now n]).length > HISTORY_LIMIT
     then (evalHist now n ++ [hiRec now n]).drop
            ((evalHist now n ++ [hiRec now n]).length - HISTORY_LIMIT)
     else evalHist now n ++ [hiRec now n])
      = evalHist now (n + 1) := by
  by_cases hn : HISTORY_LIMIT < n + 1
  · have hlen : (evalHist now n).length = HISTORY_LIMIT := by
      rw [evalHist_length]
      rw [HISTORY_LIMIT_eq] at hn ⊢
      omega
    have hcond : (evalHist now n ++ [hiRec now n]).length > HISTORY_LIMIT := by
      simp only [List.length_append, hlen, List.length_singleton]
      omega
    rw [if_pos hcond]
    have hd : (evalHist now n ++ [hiRec now n]).length - HISTORY_LIMIT = 1 := by
      simp only [List.length_append, hlen, List.length_singleton]
      omega
    rw [hd]
    have h1 : (1 : Nat) ≤ (evalHist now n).length := by
      rw [hlen, HISTORY_LIMIT_eq]
      omega
    rw [List.drop_append_of_le_length h1]
    unfold evalHist
    rw [List.drop_drop]
    have hrange : List.range (n + 1) = List.range n ++ [n] := List.range_succ n
    rw [hrange, List.map_append]
    have hle : n + 1 - HISTORY_LIMIT ≤ ((List.range n).map (hiRec now)).length := by
      simp only [List.length_map, List.length_range, HISTORY_LIMIT_eq]
      rw [HISTORY_LIMIT_eq] at hn
      omega
    rw [List.drop_append_of_le_length hle]
    have harith : n - HISTORY_LIMIT + 1 = n + 1 - HISTORY_LIMIT := by
      rw [HISTORY_LIMIT_eq] at hn ⊢
      omega
    rw [harith]
    simp
  · have hlen : (evalHist now n).length = n := by
      rw [evalHist_length]
      rw [HISTORY_LIMIT_eq] at hn ⊢
      omega
    have hcond : ¬ (evalHist now n ++ [hiRec now n]).length > HISTORY_LIMIT := by
      simp only [List.length_append, hlen, List.length_singleton]
      omega
    rw [if_neg hcond]
    unfold evalHist
    have d0 : n - HISTORY_LIMIT = 0 := by
      rw [HISTORY_LIMIT_eq] at hn ⊢
      omega
    have d1 : n + 1 - HISTORY_LIMIT = 0 := by
      rw [HISTORY_LIMIT_eq] at hn ⊢
      omega
    rw [d0, d1, List.drop_zero, List.drop_zero, List.range_succ, List.map_append]
    simp

theorem iterate_texts_eval (env : Env) :
    ∀ n, iterate_texts env 0 "general" "hi" n (genState [] 0)
      = genState (evalHist env.now n) n
  | 0 => by simp [iterate_texts, evalHist]
  | n+1 => by
    rw [iterate_texts, iterate_texts_eval env n, text_step, evalHist_step]

/-- C4: (i) for any room in the store, `add_history` replaces the history
by the just-appended list with its oldest entries dropped down to the
400-record limit, so the history never exceeds 400 entries and eviction
removes oldest first; (ii) after 401 text messages into a fresh room the
history has length 400, the record of the first message is gone, and the
surviving records keep their originally issued ids 2..401 (no
renumbering). -/
theorem history_bounded_and_evicts_oldest :
    (∀ rooms room record info, getRoom rooms room = some info →
      ∃ info', getRoom (add_history room record rooms) room = some info' ∧
        info'.history
          = (info.history ++ [record]).drop (info.history.length + 1 - HISTORY_LIMIT) ∧
        info'.history.length ≤ HISTORY_LIMIT) ∧
    (∀ env : Env, ∃ info',
      getRoom (iterate_texts env 0 "general" "hi" 401 (genState [] 0)).rooms "general"
          = some info' ∧
        info'.history = (List.range 400).map (fun i => hiRec env.now (i + 1)) ∧
        info'.history.length = 400 ∧
        hiRec env.now 0 ∉ info'.history ∧
        info'.history.map (fun r => r.id) = (List.range 400).map (fun i => i + 2)) := by
  constructor
  · intro rooms room record info h
    refine ⟨{ info with history :=
        if (info.history ++ [record]).length > HISTORY_LIMIT
        then (info.history ++ [record]).drop ((info.history ++ [record]).length - HISTORY_LIMIT)
        else info.history ++ [record] }, ?_, ?_, ?_⟩
    · rw [add_history_existing h record]
      exact getRoom_setRoom_self room _ rooms
    · show (if (info.history ++ [record]).length > HISTORY_LIMIT
            then (info.history ++ [record]).drop ((info.history ++ [record]).length - HISTORY_LIMIT)
            else info.history ++ [record])
          = (info.history ++ [record]).drop (info.history.length + 1 - HISTORY_LIMIT)
      have hlen : (info.history ++ [record]).length = info.history.length + 1 := by simp
      by_cases hc : (info.history ++ [record]).length > HISTORY_LIMIT
      · rw [if_pos hc, hlen]
      · rw [if_neg hc]
        rw [hlen] at hc
        have h0 : info.history.length + 1 - HISTORY_LIMIT = 0 := by omega
        rw [h0, List.drop_zero]
    · show (if (info.history ++ [record]).length > HISTORY_LIMIT
            then (info.history ++ [record]).drop ((info.history ++ [record]).length - HISTORY_LIMIT)
            else info.history ++ [record]).length ≤ HISTORY_LIMIT
      have hlen : (info.history ++ [record]).length = info.history.length + 1 := by simp
      by_cases hc : (info.history ++ [record]).length > HISTORY_LIMIT
      · rw [if_pos hc]
        rw [List.length_drop]
        omega
      · rw [if_neg hc]
        omega
  · intro env
    have heval := iterate_texts_eval env 401
    have h401 : List.range 401 = 0 :: (List.range 400).map Nat.succ :=
      List.range_succ_eq_map 400
    have hhist : evalHist env.now 401 = (List.range 400).map (fun i => hiRec env.now (i + 1)) := by
      unfold evalHist
      rw [HISTORY_LIMIT_eq]
      rw [show (401 : Nat) - 400 = 1 from rfl]
      rw [h401, List.map_cons, List.drop_succ_cons, List.drop_zero, List.map_map]
      rfl
    refine ⟨genRoom (evalHist env.now 401) 401, ?_, ?_, ?_, ?_, ?_⟩
    · rw [heval]
      simp [genState, getRoom, List.find?]
    · exact hhist
    · rw [show (genRoom (evalHist env.now 401) 401).history = evalHist env.now 401 from rfl, hhist]
      simp
    · rw [show (genRoom (evalHist env.now 401) 401).history = evalHist env.now 401 from rfl, hhist]
      intro hmem
      obtain ⟨i, hi, hrec⟩ := List.mem_map.mp hmem
      have hid := congrArg Rec.id hrec
      simp [hiRec] at hid
    · rw [show (genRoom (evalHist env.now 401) 401).history = evalHist env.now 401 from rfl, hhist,
        List.map_map]
      exact List.map_congr_left (fun i _ => by simp [hiRec])

theorem history_bounded_witness :
    ∃ info', getRoom (add_history "r" recW [("r", emptyRoom "alice")]) "r" = some info' ∧
      info'.history
        = (((emptyRoom "alice").history ++ [recW]).drop
            ((emptyRoom "alice").history.length + 1 - HISTORY_LIMIT)) ∧
      info'.history.length ≤ HISTORY_LIMIT :=
  history_bounded_and_evicts_oldest.1 [("r", emptyRoom "alice")] "r" recW (emptyRoom "alice")
    (by decide)

-- ------------------------- dispatcher plumbing -------------------------

/-- A concrete environment used by witnesses. -/
def envW : Env :=
  { db_register_ok := fun _ _ => true, db_login_ok := fun _ _ => true,
    b64_valid := fun _ => true, now := 7 }

theorem handle_ws_message_authed {s : ServerState} {ws : Conn} {st : Session} {u : String}
    (hs : getSession s ws = some st) (hu : st.username = some u) (env : Env) (m : ClientMsg) :
    handle_ws_message env ws s m = handle_authed env ws s st u m := by
  simp [handle_ws_message, hs, hu]

theorem lookupD_setKey_self (k : String) (v : Int) :
    ∀ m, lookupD (setKey k v m) k 0 = v := by
  intro m
  induction m with
  | nil => simp [lookupD, setKey]
  | cons p rest ih =>
    obtain ⟨k', v'⟩ := p
    rcases hk : k' == k with _ | _
    · simp only [setKey, hk, Bool.false_eq_true, if_false]
      simpa [lookupD, List.find?_cons, hk] using ih
    · simp [lookupD, setKey, hk]

-- ------------------------- C8: mark_read -------------------------

/-- C8: for a member of an existing room, `mark_read` with `up_to` at most
the current watermark mutates nothing and emits no event; with a strictly
greater value it stores that value and broadcasts exactly one `read` event
to the room; in every case the stored watermark never decreases. -/
theorem mark_read_monotonic (env : Env) (ws : Conn) (s : ServerState) (st : Session)
    (u : String) (roomArg : Option String) (up_toArg : Option Int) (info : RoomInfo)
    (hs : getSession s ws = some st) (hu : st.username = some u)
    (hr : getRoom s.rooms (pystrip (roomArg.getD "")) = some info)
    (hm : u ∈ info.members) :
    (up_toArg.getD 0 ≤ lookupD info.last_read u 0 →
      handle_ws_message env ws s (ClientMsg.mark_read roomArg up_toArg) = (s, [])) ∧
    (lookupD info.last_read u 0 < up_toArg.getD 0 →
      handle_ws_message env ws s (ClientMsg.mark_read roomArg up_toArg)
        = ({ s with rooms := setRoom (pystrip (roomArg.getD "")) { info with last_read := setKey u (up_toArg.getD 0) info.last_read } s.rooms },
           [(Dest.toRoom (pystrip (roomArg.getD "")) none,
             Event.read (pystrip (roomArg.getD "")) u (up_toArg.getD 0))])) ∧
    (∀ info', getRoom (handle_ws_message env ws s (ClientMsg.mark_read roomArg up_toArg)).1.rooms
        (pystrip (roomArg.getD "")) = some info' →
      lookupD info.last_read u 0 ≤ lookupD info'.last_read u 0) := by
  rw [handle_ws_message_authed hs hu]
  by_cases hgt : lookupD info.last_read u 0 < up_toArg.getD 0
  · have heq : handle_authed env ws s st u (ClientMsg.mark_read roomArg up_toArg)
        = ({ s with rooms := setRoom (pystrip (roomArg.getD "")) { info with last_read := setKey u (up_toArg.getD 0) info.last_read } s.rooms },
           [(Dest.toRoom (pystrip (roomArg.getD "")) none,
             Event.read (pystrip (roomArg.getD "")) u (up_toArg.getD 0))]) := by
      simp only [handle_authed, handle_mark_read, hr, hm, not_true_eq_false, if_false, hgt,
        if_true, if_pos hgt, broadcast_to_room, getRoom_setRoom_self]
    refine ⟨fun hle => absurd hgt (not_lt.mpr hle), fun _ => heq, ?_⟩
    intro info' hinfo'
    rw [heq] at hinfo'
    simp only [getRoom_setRoom_self] at hinfo'
    cases hinfo'
    simp only [lookupD_setKey_self]
    omega
  · have heq : handle_authed env ws s st u (ClientMsg.mark_read roomArg up_toArg) = (s, []) := by
      simp only [handle_authed, handle_mark_read, hr, hm, not_true_eq_false, if_false, hgt]
    refine ⟨fun _ => heq, fun hlt => absurd hlt hgt, ?_⟩
    intro info' hinfo'
    rw [heq] at hinfo'
    rw [hr] at hinfo'
    cases hinfo'
    exact le_refl _

theorem mark_read_monotonic_witness :
    handle_ws_message envW 0 (genState [] 0) (ClientMsg.mark_read (some "general") (some 3))
      = ({ genState [] 0 with rooms := setRoom "general" { genRoom [] 0 with last_read := setKey "alice" 3 [("alice", 0)] } (genState [] 0).rooms },
         [(Dest.toRoom "general" none, Event.read "general" "alice" 3)]) := by
  exact (mark_read_monotonic envW 0 (genState [] 0) { username := some "alice", current_room := none }
    "alice" (some "general") (some 3) (genRoom [] 0)
    (by decide) (by decide) (by decide) (by decide)).2.1 (by decide)

-- ------------------------- C6/C7: edit and delete -------------------------

theorem update_first_find? (p : Rec → Bool) (f : Rec → Rec)
    (hp : ∀ r, p r = true → p (f r) = true) :
    ∀ l : List Rec, (update_first p f l).find? p = (l.find? p).map f := by
  intro l
  induction l with
  | nil => simp [update_first]
  | cons r rest ih =>
    rcases hr : p r with _ | _
    · simp [update_first, hr, List.find?_cons, ih]
    · simp [update_first, hr, List.find?_cons, hp r hr]

theorem update_first_idem (p : Rec → Bool) (f : Rec → Rec)
    (hf : ∀ r, f (f r) = f r) (hp : ∀ r, p r = true → p (f r) = true) :
    ∀ l : List Rec, update_first p f (update_first p f l) = update_first p f l := by
  intro l
  induction l with
  | nil => rfl
  | cons r rest ih =>
    rcases hr : p r with _ | _
    · simp [update_first, hr, ih]
    · simp [update_first, hr, hp r hr, hf r]

theorem setRoom_setRoom (name : String) (i j : RoomInfo) :
    ∀ rooms, setRoom name i (setRoom name j rooms) = setRoom name i rooms := by
  intro rooms
  induction rooms with
  | nil => simp [setRoom]
  | cons p rest ih =>
    obtain ⟨n, r⟩ := p
    rcases hn : n == name with _ | _
    · simp [setRoom, hn, ih]
    · simp [setRoom, hn]

/-- A two-user state with one text message from alice in `"general"`. -/
def editState : ServerState :=
  { online := [(0, "alice"), (1, "bob")],
    rooms := [("general", genRoom [hiRec 7 0] 1)],
    state := [(0, { username := some "alice", current_room := none }),
              (1, { username := some "bob", current_room := none })] }

/-- C6: `edit_msg` by the original sender on an existing non-deleted text
message stores the (stripped) submitted text, sets `edited := true`, and
broadcasts one `edited` event to the room; by any other authenticated
user it is rejected with an error and the state — hence the stored
text — is unchanged. -/
theorem edit_msg_author_only (env : Env) (ws : Conn) (s : ServerState) (st : Session)
    (u w : String) (roomArg textArg : Option String) (mid : Int) (info : RoomInfo) (record : Rec)
    (hs : getSession s ws = some st)
    (hroom : ¬ pystrip (roomArg.getD "") = "")
    (hr : getRoom s.rooms (pystrip (roomArg.getD "")) = some info)
    (hfind : find_message s.rooms (pystrip (roomArg.getD "")) mid = some record) :
    (st.username = some u → u ∈ info.members → record.sender = u → record.deleted = false →
      record.tag = "text" →
      handle_ws_message env ws s (ClientMsg.edit_msg roomArg (some mid) textArg)
        = ({ s with rooms := update_message (pystrip (roomArg.getD "")) mid (fun r => { r with text := pystrip (textArg.getD ""), edited := true }) s.rooms },
           [(Dest.toRoom (pystrip (roomArg.getD "")) none,
             Event.edited (pystrip (roomArg.getD "")) mid (pystrip (textArg.getD "")) true)])) ∧
    (st.username = some w → ¬ record.sender = w →
      (handle_ws_message env ws s (ClientMsg.edit_msg roomArg (some mid) textArg)).1 = s ∧
      hasError (handle_ws_message env ws s (ClientMsg.edit_msg roomArg (some mid) textArg)).2
        = true) := by
  have hroom' : (pystrip (roomArg.getD "") == "") = false := by
    simpa using hroom
  constructor
  · intro hu hm hsend hdel htag
    rw [handle_ws_message_authed hs hu]
    simp [handle_authed, handle_edit_msg, hroom', hr, hm, hfind, hsend, hdel, htag,
      update_message, broadcast_to_room, getRoom_setRoom_self]
  · intro hu hsend
    rw [handle_ws_message_authed hs hu]
    by_cases hmem : w ∈ info.members
    · simp [handle_authed, handle_edit_msg, hroom', hr, hmem, hfind, hsend, hasError, errTo]
    · simp [handle_authed, handle_edit_msg, hroom', hr, hmem, hasError, errTo]

theorem edit_msg_author_only_witness :
    (handle_ws_message envW 0 editState (ClientMsg.edit_msg (some "general") (some 1) (some "yo"))
      = ({ editState with rooms := update_message "general" 1 (fun r => { r with text := "yo", edited := true }) editState.rooms },
         [(Dest.toRoom "general" none, Event.edited "general" 1 "yo" true)])) ∧
    ((handle_ws_message envW 1 editState
        (ClientMsg.edit_msg (some "general") (some 1) (some "yo"))).1 = editState ∧
      hasError (handle_ws_message envW 1 editState
        (ClientMsg.edit_msg (some "general") (some 1) (some "yo"))).2 = true) := by
  constructor
  · exact (edit_msg_author_only envW 0 editState
      { username := some "alice", current_room := none } "alice" "alice"
      (some "general") (some "yo") 1 (genRoom [hiRec 7 0] 1) (hiRec 7 0)
      (by decide) (by decide) (by decide) (by decide)).1
      rfl (by decide) (by decide) (by decide) (by decide)
  · exact (edit_msg_author_only envW 1 editState
      { username := some "bob", current_room := none } "alice" "bob"
      (some "general") (some "yo") 1 (genRoom [hiRec 7 0] 1) (hiRec 7 0)
      (by decide) (by decide) (by decide) (by decide)).2
      rfl (by decide)

theorem delete_msg_eval (env : Env) (ws : Conn) (s : ServerState) (st : Session)
    (u : String) (roomArg : Option String) (mid : Int) (info : RoomInfo) (record : Rec)
    (hs : getSession s ws = some st) (hu : st.username = some u)
    (hroom : ¬ pystrip (roomArg.getD "") = "")
    (hr : getRoom s.rooms (pystrip (roomArg.getD "")) = some info)
    (hm : u ∈ info.members)
    (hfind : find_message s.rooms (pystrip (roomArg.getD "")) mid = some record)
    (hauth : record.sender = u ∨ info.owner = u) :
    handle_ws_message env ws s (ClientMsg.delete_msg roomArg (some mid))
      = ({ s with rooms := setRoom (pystrip (roomArg.getD "")) { info with history := update_first (fun r => (r.id : Int) == mid) (fun r => { r with deleted := true, text := "", name := "", data := "" }) info.history } s.rooms },
         [(Dest.toRoom (pystrip (roomArg.getD "")) none,
           Event.deleted (pystrip (roomArg.getD "")) mid)]) := by
  have hroom' : (pystrip (roomArg.getD "") == "") = false := by
    simpa using hroom
  rw [handle_ws_message_authed hs hu]
  rcases hauth with hsend | howner
  · simp [handle_authed, handle_delete_msg, hroom', hr, hm, hfind, hsend,
      update_message, broadcast_to_room, getRoom_setRoom_self]
  · have hadm : is_admin s.rooms (pystrip (roomArg.getD "")) u = true := by
      simp [is_admin, hr, howner]
    simp [handle_authed, handle_delete_msg, hroom', hr, hm, hfind, hadm,
      update_message, broadcast_to_room, getRoom_setRoom_self]

/-- C7: `delete_msg` by the sender or the room owner redacts the payload
fields (`text`, `name`, `data`) and sets `deleted := true`, preserving
`id`, `sender`, `room` and `kind`, and broadcasts one `deleted` event; a
second identical `delete_msg` is a no-op producing the same observable
reply. -/
theorem delete_msg_redacts_idempotent (env : Env) (ws : Conn) (s : ServerState) (st : Session)
    (u : String) (roomArg : Option String) (mid : Int) (info : RoomInfo) (record : Rec)
    (hs : getSession s ws = some st) (hu : st.username = some u)
    (hroom : ¬ pystrip (roomArg.getD "") = "")
    (hr : getRoom s.rooms (pystrip (roomArg.getD "")) = some info)
    (hm : u ∈ info.members)
    (hfind : find_message s.rooms (pystrip (roomArg.getD "")) mid = some record)
    (hauth : record.sender = u ∨ info.owner = u) :
    handle_ws_message env ws s (ClientMsg.delete_msg roomArg (some mid))
      = ({ s with rooms := update_message (pystrip (roomArg.getD "")) mid (fun r => { r with deleted := true, text := "", name := "", data := "" }) s.rooms },
         [(Dest.toRoom (pystrip (roomArg.getD "")) none,
           Event.deleted (pystrip (roomArg.getD "")) mid)]) ∧
    (∀ r : Rec, ({ r with deleted := true, text := "", name := "", data := "" } : Rec).id = r.id ∧
      ({ r with deleted := true, text := "", name := "", data := "" } : Rec).sender = r.sender ∧
      ({ r with deleted := true, text := "", name := "", data := "" } : Rec).room = r.room ∧
      ({ r with deleted := true, text := "", name := "", data := "" } : Rec).kind = r.kind ∧
      ({ r with deleted := true, text := "", name := "", data := "" } : Rec).deleted = true) ∧
    handle_ws_message env ws
        (handle_ws_message env ws s (ClientMsg.delete_msg roomArg (some mid))).1
        (ClientMsg.delete_msg roomArg (some mid))
      = handle_ws_message env ws s (ClientMsg.delete_msg roomArg (some mid)) := by
  have heq := delete_msg_eval env ws s st u roomArg mid info record hs hu hroom hr hm hfind hauth
  have hum : update_message (pystrip (roomArg.getD "")) mid (fun r => { r with deleted := true, text := "", name := "", data := "" }) s.rooms
      = setRoom (pystrip (roomArg.getD "")) { info with history := update_first (fun r => (r.id : Int) == mid) (fun r => { r with deleted := true, text := "", name := "", data := "" }) info.history } s.rooms := by
    simp [update_message, hr]
  refine ⟨by rw [heq, hum], fun r => ⟨rfl, rfl, rfl, rfl, rfl⟩, ?_⟩
  rw [heq]
  have hfind0 : info.history.find? (fun r => (r.id : Int) == mid) = some record := by
    simpa [find_message, hr] using hfind
  have hs2 : getSession ({ s with rooms := setRoom (pystrip (roomArg.getD "")) { info with history := update_first (fun r => (r.id : Int) == mid) (fun r => { r with deleted := true, text := "", name := "", data := "" }) info.history } s.rooms } : ServerState) ws = some st := hs
  have hr2 := getRoom_setRoom_self (pystrip (roomArg.getD ""))
    ({ info with history := update_first (fun r => (r.id : Int) == mid) (fun r => { r with deleted := true, text := "", name := "", data := "" }) info.history }) s.rooms
  have hp : ∀ r : Rec, ((r.id : Int) == mid) = true →
      ((({ r with deleted := true, text := "", name := "", data := "" } : Rec).id : Int) == mid) = true :=
    fun r h => h
  have hfind2 : find_message (setRoom (pystrip (roomArg.getD "")) { info with history := update_first (fun r => (r.id : Int) == mid) (fun r => { r with deleted := true, text := "", name := "", data := "" }) info.history } s.rooms) (pystrip (roomArg.getD "")) mid
      = some ({ record with deleted := true, text := "", name := "", data := "" }) := by
    simp [find_message, hr2, update_first_find? _ _ hp, hfind0]
  have heq2 := delete_msg_eval env ws _ st u roomArg mid
    ({ info with history := update_first (fun r => (r.id : Int) == mid) (fun r => { r with deleted := true, text := "", name := "", data := "" }) info.history })
    ({ record with deleted := true, text := "", name := "", data := "" })
    hs2 hu hroom hr2 hm hfind2 (by rcases hauth with h | h; exact Or.inl h; exact Or.inr h)
  rw [heq2]
  have hidem : update_first (fun r => (r.id : Int) == mid) (fun r => { r with deleted := true, text := "", name := "", data := "" }) (update_first (fun r => (r.id : Int) == mid) (fun r => { r with deleted := true, text := "", name := "", data := "" }) info.history)
      = update_first (fun r => (r.id : Int) == mid) (fun r => { r with deleted := true, text := "", name := "", data := "" }) info.history :=
    update_first_idem (fun r => (r.id : Int) == mid)
      (fun r => { r with deleted := true, text := "", name := "", data := "" })
      (fun r => rfl) hp info.history
  rw [hidem]
  rw [setRoom_setRoom]

theorem delete_msg_redacts_idempotent_witness :
    handle_ws_message envW 0 editState (ClientMsg.delete_msg (some "general") (some 1))
      = ({ editState with rooms := update_message "general" 1 (fun r => { r with deleted := true, text := "", name := "", data := "" }) editState.rooms },
         [(Dest.toRoom "general" none, Event.deleted "general" 1)]) ∧
    handle_ws_message envW 0
        (handle_ws_message envW 0 editState (ClientMsg.delete_msg (some "general") (some 1))).1
        (ClientMsg.delete_msg (some "general") (some 1))
      = handle_ws_message envW 0 editState (ClientMsg.delete_msg (some "general") (some 1)) := by
  have h := delete_msg_redacts_idempotent envW 0 editState
    { username := some "alice", current_room := none } "alice"
    (some "general") 1 (genRoom [hiRec 7 0] 1) (hiRec 7 0)
    (by decide) (by decide) (by decide) (by decide) (by decide) (by decide)
    (Or.inl (by decide))
  exact ⟨h.1, h.2.2⟩

-- ------------------------- membership helper lemmas -------------------------

theorem mem_addMem_self (x : String) (xs : List String) : x ∈ addMem x xs := by
  unfold addMem
  by_cases h : x ∈ xs
  · simp [h]
  · simp [h]

theorem mem_addMem_of_mem {x : String} (y : String) {xs : List String} (h : x ∈ xs) :
    x ∈ addMem y xs := by
  unfold addMem
  by_cases hy : y ∈ xs <;> simp [hy, h]

-- ------------------------- C10: dm_open -------------------------

/-- C10: `dm_open` with a non-empty stripped target different from the
caller never consults the identity store — the whole result is identical
under any two environments with the same clock, in particular under one
whose identity store knows no user at all — and it leaves both the caller
and the target as members of the derived DM room, so the second
participant may be a username that was never registered. -/
theorem dm_open_skips_identity_store (env env' : Env) (ws : Conn) (s : ServerState)
    (st : Session) (u : String) (userArg : Option String)
    (hs : getSession s ws = some st) (hu : st.username = some u)
    (hne : ¬ pystrip (userArg.getD "") = "")
    (hself : ¬ pystrip (userArg.getD "") = u)
    (hnow : env.now = env'.now) :
    handle_ws_message env ws s (ClientMsg.dm_open userArg)
      = handle_ws_message env' ws s (ClientMsg.dm_open userArg) ∧
    (∃ info', getRoom (handle_ws_message env ws s (ClientMsg.dm_open userArg)).1.rooms
        (dm_room_id u (pystrip (userArg.getD ""))) = some info' ∧
      pystrip (userArg.getD "") ∈ info'.members ∧ u ∈ info'.members) := by
  have hne' : (pystrip (userArg.getD "") == "") = false := by simpa using hne
  have hself' : (pystrip (userArg.getD "") == u) = false := by simpa using hself
  constructor
  · rw [handle_ws_message_authed hs hu, handle_ws_message_authed hs hu]
    simp [handle_authed, handle_dm_open, hnow]
  · rw [handle_ws_message_authed hs hu]
    simp only [handle_authed, handle_dm_open, hne', hself', Bool.false_eq_true, if_false]
    exact ⟨_, getRoom_setRoom_self _ _ _,
      mem_addMem_self _ _, mem_addMem_of_mem _ (mem_addMem_self _ _)⟩

theorem dm_open_skips_identity_store_witness :
    handle_ws_message envW 0 (genState [] 0) (ClientMsg.dm_open (some "ghost"))
      = handle_ws_message
          { db_register_ok := fun _ _ => false, db_login_ok := fun _ _ => false,
            b64_valid := fun _ => false, now := 7 }
          0 (genState [] 0) (ClientMsg.dm_open (some "ghost")) ∧
    (∃ info', getRoom (handle_ws_message envW 0 (genState [] 0)
        (ClientMsg.dm_open (some "ghost"))).1.rooms "dm:alice|ghost" = some info' ∧
      "ghost" ∈ info'.members ∧ "alice" ∈ info'.members) := by
  exact dm_open_skips_identity_store envW
    { db_register_ok := fun _ _ => false, db_login_ok := fun _ _ => false,
      b64_valid := fun _ => false, now := 7 }
    0 (genState [] 0) { username := some "alice", current_room := none } "alice" (some "ghost")
    (by decide) (by decide) (by decide) (by decide) rfl

-- ------------------------- C9: join event order -------------------------

/-- C9: an authenticated user joining an existing public non-DM room is
added to the member set, and the replies are exactly, in order: `joined`,
`history` (the room's normalized history, empty for a fresh room),
`room_info`, then one `presence` broadcast to the room listing every
member in sorted order with status `"online"` exactly for the users
currently connected. -/
theorem join_event_order (env : Env) (ws : Conn) (s : ServerState) (st : Session)
    (u : String) (roomArg : Option String) (info : RoomInfo)
    (hs : getSession s ws = some st) (hu : st.username = some u)
    (hr : getRoom s.rooms (pystrip (roomArg.getD "")) = some info)
    (hpub : info.isPublic = true)
    (hdm : is_dm_room (pystrip (roomArg.getD "")) = false) :
    handle_ws_message env ws s (ClientMsg.join roomArg)
      = ({ s with
            rooms := setRoom (pystrip (roomArg.getD "")) { info with members := addMem u info.members, last_read := setdefault u 0 info.last_read } s.rooms,
            state := setSession ws { st with current_room := some (pystrip (roomArg.getD "")) } s.state },
         [(Dest.toConn ws, Event.joined (pystrip (roomArg.getD ""))),
          (Dest.toConn ws, Event.history (pystrip (roomArg.getD ""))
            (info.history.map (normalize_record_for_client env.now))),
          (Dest.toConn ws, Event.room_info (room_item_for u (pystrip (roomArg.getD "")) { info with members := addMem u info.members, last_read := setdefault u 0 info.last_read })),
          (Dest.toRoom (pystrip (roomArg.getD "")) none,
            Event.presence (some (pystrip (roomArg.getD "")))
              ((sortStrings (addMem u info.members)).map
                (fun x => (x, if x ∈ online_users s then "online" else "offline"))))]) ∧
    u ∈ addMem u info.members := by
  rw [handle_ws_message_authed hs hu]
  refine ⟨?_, mem_addMem_self u info.members⟩
  have hnotpriv : ¬(¬info.isPublic = true ∧ u ∉ info.invited ∧ ¬u = info.owner) := by
    intro hc
    exact hc.1 hpub
  simp only [handle_authed, handle_join, hr, hdm, Bool.false_eq_true, if_false,
    hnotpriv, join_finish, push_presence, get_history_items, getRoom_setRoom_self,
    broadcast_to_room]
  rfl

theorem join_event_order_witness :
    handle_ws_message envW 1
        { online := [(0, "alice"), (1, "bob")],
          rooms := [("general", genRoom [] 0)],
          state := [(0, { username := some "alice", current_room := none }),
                    (1, { username := some "bob", current_room := none })] }
        (ClientMsg.join (some "general"))
      = ({ online := [(0, "alice"), (1, "bob")],
           rooms := [("general", { genRoom [] 0 with members := ["alice", "bob"], last_read := [("alice", 0), ("bob", 0)] })],
           state := [(0, { username := some "alice", current_room := none }),
                     (1, { username := some "bob", current_room := some "general" })] },
         [(Dest.toConn 1, Event.joined "general"),
          (Dest.toConn 1, Event.history "general" []),
          (Dest.toConn 1, Event.room_info
            { name := "general", room := "general", isPublic := true, owner := "alice",
              avatar := none, title := "general", dm := false }),
          (Dest.toRoom "general" none,
            Event.presence (some "general")
              [("alice", "online"), ("bob", "online")])]) ∧
      "bob" ∈ addMem "bob" (genRoom [] 0).members := by
  exact join_event_order envW 1
    { online := [(0, "alice"), (1, "bob")],
      rooms := [("general", genRoom [] 0)],
      state := [(0, { username := some "alice", current_room := none }),
                (1, { username := some "bob", current_room := none })] }
    { username := some "bob", current_room := none } "bob" (some "general") (genRoom [] 0)
    (by decide) (by decide) (by decide) (by decide) (by decide)

-- ------------------------- C2: file validation -------------------------

/-- Every event is a unicast (`toConn`/`toUser`) and none is a `message`:
nothing is broadcast to the room. -/
def onlyUnicastNoMessage (evs : Sends) : Prop :=
  ∀ p ∈ evs, (match p.1 with | Dest.toRoom _ _ => False | _ => True) ∧
    (match p.2 with | Event.message _ => False | _ => True)

/-- The room's history survives the step unchanged. -/
def historyPreserved (s s' : ServerState) (room : String) : Prop :=
  ∀ info, getRoom s.rooms room = some info →
    ∃ info', getRoom s'.rooms room = some info' ∧ info'.history = info.history

theorem dm_fallback_existing {s : ServerState} {room : String} {info : RoomInfo}
    (ws : Conn) (u : String) (hr : getRoom s.rooms room = some info) :
    dm_fallback ws s u room = (room, s, []) := by
  simp [dm_fallback, hr]

theorem ensure_dm_membership_eval (s : ServerState) (room u : String) (info : RoomInfo)
    (hdm : is_dm_room room = true) (hr : getRoom s.rooms room = some info) :
    ∃ info', (ensure_dm_membership s room u).1 = { s with rooms := setRoom room info' s.rooms } ∧
      info'.history = info.history ∧ u ∈ info'.members := by
  simp only [ensure_dm_membership, hdm, if_true, hr]
  split
  · next o ho =>
    by_cases ho0 : (o == "") = true
    · simp only [ho0, if_true]
      exact ⟨_, rfl, rfl, mem_addMem_self u _⟩
    · simp only [ho0, Bool.false_eq_true, if_false]
      exact ⟨_, rfl, rfl, mem_addMem_of_mem o (mem_addMem_self u _)⟩
  · exact ⟨_, rfl, rfl, mem_addMem_self u _⟩

theorem ensure_dm_sends (s : ServerState) (room u : String) :
    ∀ p ∈ (ensure_dm_membership s room u).2,
      ∃ o it, p = (Dest.toUser o, Event.room_created it) := by
  intro p hp
  by_cases hdm : is_dm_room room = true
  · simp only [ensure_dm_membership, hdm, if_true] at hp
    rcases ho : dm_other room u with _ | o
    · rw [ho] at hp
      simp at hp
    · rw [ho] at hp
      by_cases ho0 : (o == "") = true
      · simp only [ho0, if_true] at hp
        simp at hp
      · simp only [ho0, Bool.false_eq_true, if_false, send_to_user] at hp
        by_cases hon : user_online s o = true
        · simp only [hon, if_true, List.mem_singleton] at hp
          exact ⟨_, _, hp⟩
        · simp only [hon, Bool.false_eq_true, if_false] at hp
          simp at hp
  · simp only [ensure_dm_membership, hdm, Bool.false_eq_true, if_false] at hp
    simp at hp

/-- C2: for a `file` message sent by a member into an existing room, the
validation chain runs mime allow-list, then the size check on both the
declared size and the estimate derived from the base64 length, then
decodability; whichever check fails first determines the specific error
sent as the final reply, the room's history is unchanged, and nothing is
broadcast to the room (in particular no `message` event). -/
theorem file_validation_order (env : Env) (ws : Conn) (s : ServerState) (st : Session)
    (u : String) (roomArg nameArg mimeArg dataArg : Option String)
    (sizeArg replyArg : Option Int) (info : RoomInfo)
    (hs : getSession s ws = some st) (hu : st.username = some u)
    (hroomne : ¬ pystrip (roomArg.getD "") = "")
    (hmimene : ¬ pystrip (mimeArg.getD "") = "")
    (hdatane : ¬ (dataArg.getD "") = "")
    (hr : getRoom s.rooms (pystrip (roomArg.getD "")) = some info)
    (hm : u ∈ info.members) :
    (ALLOWED_PREFIXES.any (fun p => startswith p (pystrip (mimeArg.getD ""))) = false →
      (handle_ws_message env ws s
        (ClientMsg.file roomArg nameArg mimeArg dataArg sizeArg replyArg)).2.getLast?
          = some (Dest.toConn ws, Event.error "Разрешены только изображения и видео") ∧
      historyPreserved s (handle_ws_message env ws s
        (ClientMsg.file roomArg nameArg mimeArg dataArg sizeArg replyArg)).1
        (pystrip (roomArg.getD "")) ∧
      onlyUnicastNoMessage (handle_ws_message env ws s
        (ClientMsg.file roomArg nameArg mimeArg dataArg sizeArg replyArg)).2) ∧
    (ALLOWED_PREFIXES.any (fun p => startswith p (pystrip (mimeArg.getD ""))) = true →
      (sizeArg.getD (safe_b64_len (dataArg.getD "") : Int) > MAX_BYTES ∨
        (safe_b64_len (dataArg.getD "") : Int) > MAX_BYTES) →
      (handle_ws_message env ws s
        (ClientMsg.file roomArg nameArg mimeArg dataArg sizeArg replyArg)).2.getLast?
          = some (Dest.toConn ws, Event.error "Файл больше 100 МБ") ∧
      historyPreserved s (handle_ws_message env ws s
        (ClientMsg.file roomArg nameArg mimeArg dataArg sizeArg replyArg)).1
        (pystrip (roomArg.getD "")) ∧
      onlyUnicastNoMessage (handle_ws_message env ws s
        (ClientMsg.file roomArg nameArg mimeArg dataArg sizeArg replyArg)).2) ∧
    (ALLOWED_PREFIXES.any (fun p => startswith p (pystrip (mimeArg.getD ""))) = true →
      ¬(sizeArg.getD (safe_b64_len (dataArg.getD "") : Int) > MAX_BYTES ∨
        (safe_b64_len (dataArg.getD "") : Int) > MAX_BYTES) →
      env.b64_valid (dataArg.getD "") = false →
      (handle_ws_message env ws s
        (ClientMsg.file roomArg nameArg mimeArg dataArg sizeArg replyArg)).2.getLast?
          = some (Dest.toConn ws, Event.error "Некорректные данные файла") ∧
      historyPreserved s (handle_ws_message env ws s
        (ClientMsg.file roomArg nameArg mimeArg dataArg sizeArg replyArg)).1
        (pystrip (roomArg.getD "")) ∧
      onlyUnicastNoMessage (handle_ws_message env ws s
        (ClientMsg.file roomArg nameArg mimeArg dataArg sizeArg replyArg)).2) := by
  have hroom' : (pystrip (roomArg.getD "") == "") = false := by simpa using hroomne
  have hmime' : (pystrip (mimeArg.getD "") == "") = false := by simpa using hmimene
  have hdata' : ((dataArg.getD "") == "") = false := by simpa using hdatane
  rw [handle_ws_message_authed hs hu]
  have hfb := dm_fallback_existing (s := s) ws u hr
  by_cases hdm : is_dm_room (pystrip (roomArg.getD "")) = true
  · obtain ⟨info', heq, hhist, hmem'⟩ :=
      ensure_dm_membership_eval s (pystrip (roomArg.getD "")) u info hdm hr
    have hget' : getRoom (ensure_dm_membership s (pystrip (roomArg.getD "")) u).1.rooms
        (pystrip (roomArg.getD "")) = some info' := by
      rw [heq]
      exact getRoom_setRoom_self _ _ _
    have hcommon : ∀ msg : String,
        ((ensure_dm_membership s (pystrip (roomArg.getD "")) u).2 ++ errTo ws msg).getLast?
            = some (Dest.toConn ws, Event.error msg) ∧
        historyPreserved s (ensure_dm_membership s (pystrip (roomArg.getD "")) u).1
          (pystrip (roomArg.getD "")) ∧
        onlyUnicastNoMessage
          ((ensure_dm_membership s (pystrip (roomArg.getD "")) u).2 ++ errTo ws msg) := by
      intro msg
      refine ⟨?_, ?_, ?_⟩
      · exact List.getLast?_concat _
      · intro info0 hinfo0
        rw [hr] at hinfo0
        cases hinfo0
        exact ⟨info', hget', hhist⟩
      · intro p hp
        rcases List.mem_append.mp hp with h | h
        · obtain ⟨o, it, rfl⟩ := ensure_dm_sends s _ u p h
          exact ⟨trivial, trivial⟩
        · simp only [errTo, List.mem_singleton] at h
          subst h
          exact ⟨trivial, trivial⟩
    refine ⟨fun hG1 => ?_, fun hG1 hG2 => ?_, fun hG1 hG2 hG3 => ?_⟩
    · have heval : handle_authed env ws s st u
          (ClientMsg.file roomArg nameArg mimeArg dataArg sizeArg replyArg)
          = ((ensure_dm_membership s (pystrip (roomArg.getD "")) u).1,
             (ensure_dm_membership s (pystrip (roomArg.getD "")) u).2
               ++ errTo ws "Разрешены только изображения и видео") := by
        simp only [handle_authed, handle_file, hroom', hmime', hdata', Bool.or_self,
          Bool.false_eq_true, if_false, hfb, hdm, if_true, hget', hmem',
          not_true_eq_false, hG1, Bool.not_false, not_false_eq_true, if_true, List.nil_append]
      rw [heval]
      exact hcommon _
    · have heval : handle_authed env ws s st u
          (ClientMsg.file roomArg nameArg mimeArg dataArg sizeArg replyArg)
          = ((ensure_dm_membership s (pystrip (roomArg.getD "")) u).1,
             (ensure_dm_membership s (pystrip (roomArg.getD "")) u).2
               ++ errTo ws "Файл больше 100 МБ") := by
        simp only [handle_authed, handle_file, hroom', hmime', hdata', Bool.or_self,
          Bool.false_eq_true, if_false, hfb, hdm, if_true, hget', hmem',
          not_true_eq_false, hG1, Bool.not_true, hG2, List.nil_append,
          decide_eq_true_eq]
        simp [hG2]
      rw [heval]
      exact hcommon _
    · have heval : handle_authed env ws s st u
          (ClientMsg.file roomArg nameArg mimeArg dataArg sizeArg replyArg)
          = ((ensure_dm_membership s (pystrip (roomArg.getD "")) u).1,
             (ensure_dm_membership s (pystrip (roomArg.getD "")) u).2
               ++ errTo ws "Некорректные данные файла") := by
        simp only [handle_authed, handle_file, hroom', hmime', hdata', Bool.or_self,
          Bool.false_eq_true, if_false, hfb, hdm, if_true, hget', hmem',
          not_true_eq_false, hG1, Bool.not_true, List.nil_append]
        simp [hG2, hG3]
      rw [heval]
      exact hcommon _
  · have hdm' : is_dm_room (pystrip (roomArg.getD "")) = false := by
      rcases h : is_dm_room (pystrip (roomArg.getD "")) with _ | _
      · rfl
      · exact absurd h hdm
    have hcommon : ∀ msg : String,
        (errTo ws msg : Sends).getLast? = some (Dest.toConn ws, Event.error msg) ∧
        historyPreserved s s (pystrip (roomArg.getD "")) ∧
        onlyUnicastNoMessage (errTo ws msg) := by
      intro msg
      refine ⟨rfl, ?_, ?_⟩
      · intro info0 hinfo0
        exact ⟨info0, hinfo0, rfl⟩
      · intro p hp
        simp only [errTo, List.mem_singleton] at hp
        subst hp
        exact ⟨trivial, trivial⟩
    refine ⟨fun hG1 => ?_, fun hG1 hG2 => ?_, fun hG1 hG2 hG3 => ?_⟩
    · have heval : handle_authed env ws s st u
          (ClientMsg.file roomArg nameArg mimeArg dataArg sizeArg replyArg)
          = (s, errTo ws "Разрешены только изображения и видео") := by
        simp only [handle_authed, handle_file, hroom', hmime', hdata', Bool.or_self,
          Bool.false_eq_true, if_false, hfb, hdm', hr, hm, not_true_eq_false,
          hG1, Bool.not_false, not_false_eq_true, if_true, List.nil_append]
      rw [heval]
      exact hcommon _
    · have heval : handle_authed env ws s st u
          (ClientMsg.file roomArg nameArg mimeArg dataArg sizeArg replyArg)
          = (s, errTo ws "Файл больше 100 МБ") := by
        simp only [handle_authed, handle_file, hroom', hmime', hdata', Bool.or_self,
          Bool.false_eq_true, if_false, hfb, hdm', hr, hm, not_true_eq_false,
          hG1, Bool.not_true, List.nil_append]
        simp [hG2]
      rw [heval]
      exact hcommon _
    · have heval : handle_authed env ws s st u
          (ClientMsg.file roomArg nameArg mimeArg dataArg sizeArg replyArg)
          = (s, errTo ws "Некорректные данные файла") := by
        simp only [handle_authed, handle_file, hroom', hmime', hdata', Bool.or_self,
          Bool.false_eq_true, if_false, hfb, hdm', hr, hm, not_true_eq_false,
          hG1, Bool.not_true, List.nil_append]
        simp [hG2, hG3]
      rw [heval]
      exact hcommon _

theorem file_validation_order_witness :
    (handle_ws_message envW 0 editState
      (ClientMsg.file (some "general") (some "a.pdf") (some "application/pdf") (some "AAAA")
        none none)).2.getLast?
        = some (Dest.toConn 0, Event.error "Разрешены только изображения и видео") ∧
    historyPreserved editState
      (handle_ws_message envW 0 editState
        (ClientMsg.file (some "general") (some "a.pdf") (some "application/pdf") (some "AAAA")
          none none)).1 "general" ∧
    onlyUnicastNoMessage
      (handle_ws_message envW 0 editState
        (ClientMsg.file (some "general") (some "a.pdf") (some "application/pdf") (some "AAAA")
          none none)).2 := by
  exact (file_validation_order envW 0 editState
    { username := some "alice", current_room := none } "alice"
    (some "general") (some "a.pdf") (some "application/pdf") (some "AAAA") none none
    (genRoom [hiRec 7 0] 1)
    (by decide) (by decide) (by decide) (by decide) (by decide) (by decide) (by decide)).1
    (by decide)

-- ------------------------- C1: failed preconditions -------------------------

theorem hasError_nil : hasError [] = false := rfl

theorem hasError_cons (p : Dest × Event) (evs : Sends) :
    hasError (p :: evs)
      = ((match p.2 with | Event.error _ => true | _ => false) || hasError evs) := rfl

theorem hasError_append (a b : Sends) : hasError (a ++ b) = (hasError a || hasError b) :=
  List.any_append

theorem hasError_broadcast (rooms : List (String × RoomInfo)) (room : String)
    (ex : Option Conn) (ev : Event) (hev : ∀ t, ¬ ev = Event.error t) :
    hasError (broadcast_to_room rooms room ex ev) = false := by
  unfold broadcast_to_room
  cases h : getRoom rooms room with
  | none => rfl
  | some info => cases ev <;> first | exact absurd rfl (hev _) | rfl

theorem hasError_send_to_user (s : ServerState) (u : String) (ev : Event)
    (hev : ∀ t, ¬ ev = Event.error t) : hasError (send_to_user s u ev) = false := by
  unfold send_to_user
  rcases h : user_online s u with _ | _
  · simp only [h, Bool.false_eq_true, if_false]
    rfl
  · simp only [h, if_true]
    cases ev <;> first | exact absurd rfl (hev _) | rfl

theorem hasError_push_presence (s : ServerState) (room : Option String) :
    hasError (push_presence s room) = false := by
  unfold push_presence
  cases room with
  | some r =>
    cases h : getRoom s.rooms r with
    | none => simp only [h]; rfl
    | some info =>
      simp only [h]
      exact hasError_broadcast _ _ _ _ (fun t h => Event.noConfusion h)
  | none =>
    refine List.any_eq_false.mpr ?_
    intro p hp
    obtain ⟨q, hq, rfl⟩ := List.mem_map.mp hp
    simp

theorem hasError_ensure_dm (s : ServerState) (room u : String) :
    hasError (ensure_dm_membership s room u).2 = false := by
  have hall := ensure_dm_sends s room u
  rcases h : hasError (ensure_dm_membership s room u).2 with _ | _
  · rfl
  · exfalso
    unfold hasError at h
    obtain ⟨p, hp, hperr⟩ := List.any_eq_true.mp h
    obtain ⟨o, it, rfl⟩ := hall p hp
    simp at hperr

/-- For every message except `file`, the claimed post-state of a rejected
message: everything unchanged.  A rejected `file` may additionally have
run the DM fallback, which creates/extends one DM room before validation
fails; `ONLINE` and `STATE` are still untouched. -/
def C1Post (s : ServerState) (m : ClientMsg) (s' : ServerState) : Prop :=
  match m with
  | .file _ _ _ _ _ _ =>
    s'.online = s.online ∧ s'.state = s.state ∧
      (s'.rooms = s.rooms ∨
        ∃ rm v, s'.rooms = ((ensure_dm_membership s rm v).1).rooms)
  | _ => s' = s

theorem C1Post_refl (s : ServerState) (m : ClientMsg) : C1Post s m s := by
  cases m <;> simp [C1Post]

/-- Either the handler left the state untouched, or it replied without any
error event. -/
def errOrSame (s : ServerState) (r : ServerState × Sends) : Prop :=
  r.1 = s ∨ hasError r.2 = false

theorem errOrSame_list_rooms (ws : Conn) (s : ServerState) (u : String) :
    errOrSame s (handle_list_rooms ws s u) :=
  Or.inl rfl

theorem errOrSame_room_info (ws : Conn) (s : ServerState) (u : String)
    (roomArg : Option String) : errOrSame s (handle_room_info ws s u roomArg) := by
  unfold errOrSame handle_room_info
  dsimp only
  split
  · exact Or.inl rfl
  · split
    · split
      · exact Or.inl rfl
      · exact Or.inl rfl
    · split
      · exact Or.inl rfl
      · exact Or.inl rfl

theorem errOrSame_typing (s : ServerState) (u : String) (roomArg : Option String) :
    errOrSame s (handle_typing s u roomArg) := by
  unfold errOrSame handle_typing
  dsimp only
  split
  · split
    · exact Or.inl rfl
    · exact Or.inl rfl
  · exact Or.inl rfl

theorem errOrSame_dm_open (env : Env) (ws : Conn) (s : ServerState) (st : Session)
    (u : String) (userArg : Option String) :
    errOrSame s (handle_dm_open env ws s st u userArg) := by
  unfold errOrSame handle_dm_open
  dsimp only
  split
  · exact Or.inl rfl
  · split
    · exact Or.inl rfl
    · refine Or.inr ?_
      rw [hasError_append, hasError_append, hasError_push_presence,
        hasError_send_to_user _ _ _ (fun t => by simp)]
      rfl

theorem errOrSame_create_room (ws : Conn) (s : ServerState) (u : String)
    (roomArg : Option String) (is_public : Bool) :
    errOrSame s (handle_create_room ws s u roomArg is_public) := by
  unfold errOrSame handle_create_room
  dsimp only
  split
  · exact Or.inl rfl
  · split
    · exact Or.inl rfl
    · refine Or.inr ?_
      rw [hasError_append, hasError_push_presence]
      rfl

theorem errOrSame_join (env : Env) (ws : Conn) (s : ServerState) (st : Session)
    (u : String) (roomArg : Option String) :
    errOrSame s (handle_join env ws s st u roomArg) := by
  have hfin : ∀ room info1, errOrSame s (join_finish env ws s st u room info1) := by
    intro room info1
    refine Or.inr ?_
    unfold join_finish
    rw [hasError_append, hasError_push_presence]
    rfl
  unfold errOrSame handle_join
  dsimp only
  split
  · exact Or.inl rfl
  · split
    · split
      · exact Or.inl rfl
      · exact hfin _ _
    · split
      · exact Or.inl rfl
      · exact hfin _ _

theorem errOrSame_invite (ws : Conn) (s : ServerState) (u : String)
    (roomArg userArg : Option String) : errOrSame s (handle_invite ws s u roomArg userArg) := by
  unfold errOrSame handle_invite
  dsimp only
  split
  · exact Or.inl rfl
  · split
    · exact Or.inl rfl
    · split
      · exact Or.inl rfl
      · split
        · exact Or.inl rfl
        · exact Or.inr rfl

theorem errOrSame_rename_room (ws : Conn) (s : ServerState) (u : String)
    (roomArg titleArg : Option String) :
    errOrSame s (handle_rename_room ws s u roomArg titleArg) := by
  unfold errOrSame handle_rename_room
  dsimp only
  split
  · exact Or.inl rfl
  · split
    · exact Or.inl rfl
    · split
      · exact Or.inl rfl
      · split
        · exact Or.inl rfl
        · split
          · exact Or.inl rfl
          · exact Or.inr (hasError_broadcast _ _ _ _ (fun t h => Event.noConfusion h))

theorem errOrSame_set_room_avatar (ws : Conn) (s : ServerState) (u : String)
    (roomArg avatarArg : Option String) :
    errOrSame s (handle_set_room_avatar ws s u roomArg avatarArg) := by
  unfold errOrSame handle_set_room_avatar
  dsimp only
  split
  · exact Or.inl rfl
  · split
    · exact Or.inl rfl
    · split
      · exact Or.inl rfl
      · split
        · split
          · exact Or.inl rfl
          · exact Or.inr (hasError_broadcast _ _ _ _ (fun t h => Event.noConfusion h))
        · exact Or.inr (hasError_broadcast _ _ _ _ (fun t h => Event.noConfusion h))

theorem errOrSame_delete_room (ws : Conn) (s : ServerState) (u : String)
    (roomArg : Option String) : errOrSame s (handle_delete_room ws s u roomArg) := by
  unfold errOrSame handle_delete_room
  dsimp only
  split
  · exact Or.inl rfl
  · split
    · exact Or.inl rfl
    · split
      · exact Or.inl rfl
      · exact Or.inr (hasError_broadcast _ _ _ _ (fun t h => Event.noConfusion h))

theorem errOrSame_mark_read (s : ServerState) (u : String)
    (roomArg : Option String) (up_toArg : Option Int) :
    errOrSame s (handle_mark_read s u roomArg up_toArg) := by
  unfold errOrSame handle_mark_read
  dsimp only
  split
  · exact Or.inl rfl
  · split
    · exact Or.inl rfl
    · split
      · exact Or.inr (hasError_broadcast _ _ _ _ (fun t h => Event.noConfusion h))
      · exact Or.inl rfl

theorem errOrSame_edit_msg (ws : Conn) (s : ServerState) (u : String)
    (roomArg : Option String) (idArg : Option Int) (textArg : Option String) :
    errOrSame s (handle_edit_msg ws s u roomArg idArg textArg) := by
  unfold errOrSame handle_edit_msg
  dsimp only
  split
  · exact Or.inl rfl
  · split
    · exact Or.inl rfl
    · split
      · exact Or.inl rfl
      · split
        · exact Or.inl rfl
        · split
          · exact Or.inl rfl
          · split
            · exact Or.inl rfl
            · split
              · exact Or.inl rfl
              · split
                · exact Or.inl rfl
                · exact Or.inr (hasError_broadcast _ _ _ _ (fun t h => Event.noConfusion h))

theorem errOrSame_delete_msg (ws : Conn) (s : ServerState) (u : String)
    (roomArg : Option String) (idArg : Option Int) :
    errOrSame s (handle_delete_msg ws s u roomArg idArg) := by
  unfold errOrSame handle_delete_msg
  dsimp only
  split
  · exact Or.inl rfl
  · split
    · exact Or.inl rfl
    · split
      · exact Or.inl rfl
      · split
        · exact Or.inl rfl
        · split
          · exact Or.inl rfl
          · split
            · exact Or.inl rfl
            · exact Or.inr (hasError_broadcast _ _ _ _ (fun t h => Event.noConfusion h))

theorem errOrSame_auth_attempt (dbOk : String → String → Bool) (failText : String)
    (ws : Conn) (s : ServerState) (st : Session) (ua pa : Option String) :
    errOrSame s (handle_auth_attempt dbOk failText ws s st ua pa) := by
  unfold errOrSame handle_auth_attempt
  dsimp only
  split
  · exact Or.inl rfl
  · split
    · exact Or.inl rfl
    · exact Or.inr rfl

theorem is_dm_room_dm_room_id (a b : String) : is_dm_room (dm_room_id a b) = true := by
  show startswith "dm:"
      ("dm:" ++ (sorted2 (pystrip a) (pystrip b)).1 ++ "|" ++ (sorted2 (pystrip a) (pystrip b)).2)
      = true
  unfold startswith
  rw [List.isPrefixOf_iff_prefix]
  have hdata : ("dm:" ++ (sorted2 (pystrip a) (pystrip b)).1 ++ "|"
        ++ (sorted2 (pystrip a) (pystrip b)).2).data
      = "dm:".data ++ ((sorted2 (pystrip a) (pystrip b)).1.data
        ++ ("|".data ++ (sorted2 (pystrip a) (pystrip b)).2.data)) := by
    simp [String.data_append, List.append_assoc]
  rw [hdata]
  exact List.prefix_append _ _

theorem ensure_dm_post (s : ServerState) (room u : String) (hdm : is_dm_room room = true) :
    ∃ info', getRoom (ensure_dm_membership s room u).1.rooms room = some info' ∧
      u ∈ info'.members := by
  unfold ensure_dm_membership
  simp only [hdm, if_true]
  split
  · next o ho =>
    by_cases ho0 : (o == "") = true
    · simp only [ho0, if_true]
      exact ⟨_, getRoom_setRoom_self _ _ _, mem_addMem_self u _⟩
    · simp only [ho0, Bool.false_eq_true, if_false]
      exact ⟨_, getRoom_setRoom_self _ _ _, mem_addMem_of_mem o (mem_addMem_self u _)⟩
  · exact ⟨_, getRoom_setRoom_self _ _ _, mem_addMem_self u _⟩

theorem ensure_dm_online (s : ServerState) (room u : String) :
    (ensure_dm_membership s room u).1.online = s.online ∧
      (ensure_dm_membership s room u).1.state = s.state := by
  unfold ensure_dm_membership
  by_cases hdm : is_dm_room room = true
  · simp only [hdm, if_true]
    split
    · next o ho =>
      by_cases ho0 : (o == "") = true
      · simp [ho0]
      · simp [ho0]
    · simp
  · simp [hdm]

theorem dm_fallback_spec (ws : Conn) (s : ServerState) (u room : String) :
    dm_fallback ws s u room = (room, s, []) ∨
      (is_dm_room (dm_fallback ws s u room).1 = true ∧
        hasError (dm_fallback ws s u room).2.2 = false ∧
        (dm_fallback ws s u room).2.1
          = (ensure_dm_membership s (dm_room_id u room) u).1 ∧
        (dm_fallback ws s u room).1 = dm_room_id u room) := by
  unfold dm_fallback
  dsimp only
  split
  · split
    · refine Or.inr ⟨is_dm_room_dm_room_id u room, ?_, rfl, rfl⟩
      rw [hasError_append, hasError_ensure_dm]
      simp only [Bool.false_or]
      split
      · rfl
      · rfl
    · exact Or.inl rfl
  · exact Or.inl rfl

theorem errOrSame_text (env : Env) (ws : Conn) (s : ServerState) (u : String)
    (roomArg textArg : Option String) (replyArg : Option Int) :
    errOrSame s (handle_text env ws s u roomArg textArg replyArg) := by
  unfold errOrSame handle_text
  dsimp only
  split
  · exact Or.inl rfl
  · rcases dm_fallback_spec ws s u (pystrip (roomArg.getD "")) with hfb | ⟨hdm1, herr1, hs1, hroom1⟩
    · rw [hfb]
      dsimp only
      by_cases hdm : is_dm_room (pystrip (roomArg.getD "")) = true
      · simp only [hdm, if_true]
        obtain ⟨info', hget', hmem'⟩ := ensure_dm_post s _ u hdm
        simp only [hget']
        have hmem'' : ¬ u ∉ info'.members := not_not_intro hmem'
        simp only [hmem'', if_false, List.nil_append]
        refine Or.inr ?_
        rw [hasError_append, hasError_ensure_dm,
          hasError_broadcast _ _ _ _ (fun t => by simp)]
        rfl
      · have hdm' : is_dm_room (pystrip (roomArg.getD "")) = false := by
          rcases h : is_dm_room (pystrip (roomArg.getD "")) with _ | _
          · rfl
          · exact absurd h hdm
        simp only [hdm', Bool.false_eq_true, if_false, List.nil_append]
        split
        · exact Or.inl rfl
        · split
          · exact Or.inl rfl
          · refine Or.inr ?_
            rw [hasError_broadcast _ _ _ _ (fun t => by simp)]
    · simp only [hdm1, if_true, hs1]
      obtain ⟨info', hget', hmem'⟩ :=
        ensure_dm_post (ensure_dm_membership s (dm_room_id u (pystrip (roomArg.getD ""))) u).1
          (dm_fallback ws s u (pystrip (roomArg.getD ""))).1 u hdm1
      simp only [hget']
      have hmem'' : ¬ u ∉ info'.members := not_not_intro hmem'
      simp only [hmem'', if_false]
      refine Or.inr ?_
      rw [hasError_append, hasError_append, herr1, hasError_ensure_dm,
        hasError_broadcast _ _ _ _ (fun t => by simp)]
      rfl

theorem addMem_eq_of_mem {x : String} {xs : List String} (h : x ∈ xs) : addMem x xs = xs := by
  simp [addMem, h]

theorem keyMem_setdefault_self (k : String) (v : Int) (m : List (String × Int)) :
    (setdefault k v m).any (fun p => p.1 == k) = true := by
  unfold setdefault
  by_cases h : m.any (fun p => p.1 == k) = true
  · simp [h]
  · simp [h, List.any_append]

theorem keyMem_setdefault_mono (k k' : String) (v : Int) (m : List (String × Int))
    (h : m.any (fun p => p.1 == k) = true) :
    (setdefault k' v m).any (fun p => p.1 == k) = true := by
  unfold setdefault
  by_cases h' : m.any (fun p => p.1 == k') = true
  · simp [h', h]
  · simp [h', List.any_append, h]

theorem setdefault_eq_of_keyMem (k : String) (v : Int) (m : List (String × Int))
    (h : m.any (fun p => p.1 == k) = true) : setdefault k v m = m := by
  simp [setdefault, h]

theorem ensure_dm_idem (s : ServerState) (room u : String) :
    (ensure_dm_membership (ensure_dm_membership s room u).1 room u).1.rooms
      = (ensure_dm_membership s room u).1.rooms := by
  by_cases hdm : is_dm_room room = true
  · rcases ho : dm_other room u with _ | o
    · simp only [ensure_dm_membership, hdm, if_true, ho, getRoom_setRoom_self]
      rw [addMem_eq_of_mem (mem_addMem_self u _),
        setdefault_eq_of_keyMem _ _ _ (keyMem_setdefault_self u 0 _),
        setRoom_setRoom]
    · by_cases ho0 : (o == "") = true
      · simp only [ensure_dm_membership, hdm, if_true, ho, ho0, getRoom_setRoom_self]
        rw [addMem_eq_of_mem (mem_addMem_self u _),
          setdefault_eq_of_keyMem _ _ _ (keyMem_setdefault_self u 0 _),
          setRoom_setRoom]
      · simp only [ensure_dm_membership, hdm, if_true, ho, ho0, Bool.false_eq_true, if_false,
          getRoom_setRoom_self]
        rw [addMem_eq_of_mem (mem_addMem_of_mem o (mem_addMem_self u _)),
          setdefault_eq_of_keyMem _ _ _
            (keyMem_setdefault_mono u o 0 _ (keyMem_setdefault_self u 0 _)),
          addMem_eq_of_mem (mem_addMem_self o _),
          setdefault_eq_of_keyMem _ _ _ (keyMem_setdefault_self o 0 _),
          setRoom_setRoom]
  · simp [ensure_dm_membership, hdm]

theorem hasError_broadcast_message (rooms : List (String × RoomInfo)) (room : String)
    (ex : Option Conn) (record : Rec) :
    hasError (broadcast_to_room rooms room ex (Event.message record)) = false :=
  hasError_broadcast _ _ _ _ (fun t => by simp)

set_option maxHeartbeats 4000000 in
theorem file_c1 (env : Env) (ws : Conn) (s : ServerState) (u : String)
    (roomArg nameArg mimeArg dataArg : Option String) (sizeArg replyArg : Option Int) :
    hasError (handle_file env ws s u roomArg nameArg mimeArg dataArg sizeArg replyArg).2 = true →
    (handle_file env ws s u roomArg nameArg mimeArg dataArg sizeArg replyArg).1.online = s.online ∧
    (handle_file env ws s u roomArg nameArg mimeArg dataArg sizeArg replyArg).1.state = s.state ∧
    ((handle_file env ws s u roomArg nameArg mimeArg dataArg sizeArg replyArg).1.rooms = s.rooms ∨
      ∃ rm v, (handle_file env ws s u roomArg nameArg mimeArg dataArg sizeArg replyArg).1.rooms
        = ((ensure_dm_membership s rm v).1).rooms) := by
  unfold handle_file
  dsimp only
  split
  · intro _
    exact ⟨rfl, rfl, Or.inl rfl⟩
  · rcases dm_fallback_spec ws s u (pystrip (roomArg.getD ""))
      with hfb | ⟨hdm1, herr1, hs1, hroom1⟩
    · rw [hfb]
      dsimp only
      by_cases hdm : is_dm_room (pystrip (roomArg.getD "")) = true
      · simp only [hdm, if_true]
        obtain ⟨info', hget', hmem'⟩ := ensure_dm_post s _ u hdm
        simp only [hget']
        have hmem'' : ¬ u ∉ info'.members := not_not_intro hmem'
        simp only [hmem'', if_false]
        obtain ⟨hon, hst⟩ := ensure_dm_online s (pystrip (roomArg.getD "")) u
        split
        · intro _
          exact ⟨hon, hst, Or.inr ⟨_, u, rfl⟩⟩
        · split
          · intro _
            exact ⟨hon, hst, Or.inr ⟨_, u, rfl⟩⟩
          · split
            · intro _
              exact ⟨hon, hst, Or.inr ⟨_, u, rfl⟩⟩
            · intro herr
              exfalso
              simp only [hasError_append, hasError_ensure_dm, hasError_broadcast_message,
                hasError_nil, Bool.or_false, Bool.false_or] at herr
              exact Bool.noConfusion herr
      · have hdm' : is_dm_room (pystrip (roomArg.getD "")) = false := by
          rcases h : is_dm_room (pystrip (roomArg.getD "")) with _ | _
          · rfl
          · exact absurd h hdm
        simp only [hdm', Bool.false_eq_true, if_false]
        split
        · intro _
          exact ⟨rfl, rfl, Or.inl rfl⟩
        · split
          · intro _
            exact ⟨rfl, rfl, Or.inl rfl⟩
          · split
            · intro _
              exact ⟨rfl, rfl, Or.inl rfl⟩
            · split
              · intro _
                exact ⟨rfl, rfl, Or.inl rfl⟩
              · split
                · intro _
                  exact ⟨rfl, rfl, Or.inl rfl⟩
                · intro herr
                  exfalso
                  simp only [hasError_append, hasError_broadcast_message,
                    hasError_nil, Bool.or_false, Bool.false_or] at herr
                  exact Bool.noConfusion herr
    · rw [hroom1] at hdm1 ⊢
      simp only [hdm1, if_true, hs1]
      obtain ⟨info', hget', hmem'⟩ :=
        ensure_dm_post (ensure_dm_membership s (dm_room_id u (pystrip (roomArg.getD ""))) u).1
          (dm_room_id u (pystrip (roomArg.getD ""))) u hdm1
      simp only [hget']
      have hmem'' : ¬ u ∉ info'.members := not_not_intro hmem'
      simp only [hmem'', if_false]
      have hon1 := ensure_dm_online s (dm_room_id u (pystrip (roomArg.getD ""))) u
      have hon2 := ensure_dm_online
        (ensure_dm_membership s (dm_room_id u (pystrip (roomArg.getD ""))) u).1
        (dm_room_id u (pystrip (roomArg.getD ""))) u
      have hidem := ensure_dm_idem s (dm_room_id u (pystrip (roomArg.getD ""))) u
      split
      · intro _
        exact ⟨hon2.1.trans hon1.1, hon2.2.trans hon1.2, Or.inr ⟨_, u, hidem⟩⟩
      · split
        · intro _
          exact ⟨hon2.1.trans hon1.1, hon2.2.trans hon1.2, Or.inr ⟨_, u, hidem⟩⟩
        · split
          · intro _
            exact ⟨hon2.1.trans hon1.1, hon2.2.trans hon1.2, Or.inr ⟨_, u, hidem⟩⟩
          · intro herr
            exfalso
            simp only [hasError_append, herr1, hasError_ensure_dm, hasError_broadcast_message,
              hasError_nil, Bool.or_false, Bool.false_or] at herr
            exact Bool.noConfusion herr

theorem handle_ws_message_unauth {s : ServerState} {ws : Conn} {st : Session}
    (hs : getSession s ws = some st) (hu : st.username = none) (env : Env) (m : ClientMsg) :
    handle_ws_message env ws s m = handle_unauth env ws s st m := by
  simp [handle_ws_message, hs, hu]

theorem C1Post_of_errOrSame {s : ServerState} {m : ClientMsg} {r : ServerState × Sends}
    (h : errOrSame s r) (herr : hasError r.2 = true) : C1Post s m r.1 := by
  rcases h with h1 | h2
  · rw [h1]
    exact C1Post_refl s m
  · rw [h2] at herr
    exact Bool.noConfusion herr

/-- C1 (amended): for any message handled on an existing session, if the
handling emits a typed error event then `ONLINE`, `STATE` (and the
derived `ONLINE_BY_USER`) are unchanged, and `ROOMS` is unchanged as
well — except that a failing `file` message may first have created or
extended one DM room through the legacy DM fallback / `ensure_dm_membership`
path before its validation failed.  Moreover not every failed
precondition is reported: `mark_read` on an unknown room returns
silently, with no event and no mutation. -/
theorem error_reply_state_effects (env : Env) (ws : Conn) (s : ServerState) (st : Session)
    (m : ClientMsg) (hs : getSession s ws = some st) :
    (hasError (handle_ws_message env ws s m).2 = true →
      C1Post s m (handle_ws_message env ws s m).1) ∧
    (∀ u roomArg up_toArg, st.username = some u →
      getRoom s.rooms (pystrip ((roomArg : Option String).getD "")) = none →
      handle_ws_message env ws s (ClientMsg.mark_read roomArg up_toArg) = (s, [])) := by
  constructor
  · intro herr
    cases hus : st.username with
    | none =>
      rw [handle_ws_message_unauth hs hus] at herr ⊢
      cases m
      case register ua pa =>
        exact C1Post_of_errOrSame (errOrSame_auth_attempt _ _ ws s st ua pa) herr
      case login ua pa =>
        exact C1Post_of_errOrSame (errOrSame_auth_attempt _ _ ws s st ua pa) herr
      all_goals exact C1Post_refl s _
    | some u =>
      rw [handle_ws_message_authed hs hus] at herr ⊢
      cases m
      case list_rooms => exact C1Post_of_errOrSame (errOrSame_list_rooms ws s u) herr
      case dm_open a => exact C1Post_of_errOrSame (errOrSame_dm_open env ws s st u a) herr
      case create_room a b => exact C1Post_of_errOrSame (errOrSame_create_room ws s u a b) herr
      case join a => exact C1Post_of_errOrSame (errOrSame_join env ws s st u a) herr
      case room_info a => exact C1Post_of_errOrSame (errOrSame_room_info ws s u a) herr
      case invite a b => exact C1Post_of_errOrSame (errOrSame_invite ws s u a b) herr
      case rename_room a b => exact C1Post_of_errOrSame (errOrSame_rename_room ws s u a b) herr
      case set_room_avatar a b =>
        exact C1Post_of_errOrSame (errOrSame_set_room_avatar ws s u a b) herr
      case delete_room a => exact C1Post_of_errOrSame (errOrSame_delete_room ws s u a) herr
      case mark_read a b => exact C1Post_of_errOrSame (errOrSame_mark_read s u a b) herr
      case text a b c => exact C1Post_of_errOrSame (errOrSame_text env ws s u a b c) herr
      case file a b c d e f => exact file_c1 env ws s u a b c d e f herr
      case typing a => exact C1Post_of_errOrSame (errOrSame_typing s u a) herr
      case edit_msg a b c => exact C1Post_of_errOrSame (errOrSame_edit_msg ws s u a b c) herr
      case delete_msg a b => exact C1Post_of_errOrSame (errOrSame_delete_msg ws s u a b) herr
      case register a b => exact C1Post_refl s _
      case login a b => exact C1Post_refl s _
      case other => exact C1Post_refl s _
  · intro u roomArg up_toArg hu hnone
    rw [handle_ws_message_authed hs hu]
    simp [handle_authed, handle_mark_read, hnone]

/-- C1 as stated is false at a concrete input: this `file` message is
rejected with a typed error event, yet `ROOMS` has changed — the legacy
DM fallback created the room `dm:alice|bob` before the mime validation
failed. -/
theorem error_reply_mutates_state_counterexample :
    hasError (handle_ws_message envW 0 (genState [] 0)
        (ClientMsg.file (some "bob") (some "a.pdf") (some "application/pdf") (some "AAAA")
          none none)).2 = true ∧
      ¬ (handle_ws_message envW 0 (genState [] 0)
        (ClientMsg.file (some "bob") (some "a.pdf") (some "application/pdf") (some "AAAA")
          none none)).1.rooms = (genState [] 0).rooms := by
  decide

theorem error_reply_state_effects_witness :
    C1Post (genState [] 0)
      (ClientMsg.file (some "bob") (some "a.pdf") (some "application/pdf") (some "AAAA") none none)
      (handle_ws_message envW 0 (genState [] 0)
        (ClientMsg.file (some "bob") (some "a.pdf") (some "application/pdf") (some "AAAA")
          none none)).1 ∧
    handle_ws_message envW 0 (genState [] 0) (ClientMsg.mark_read (some "nosuch") (some 3))
      = (genState [] 0, []) := by
  have h := error_reply_state_effects envW 0 (genState [] 0)
    { username := some "alice", current_room := none }
    (ClientMsg.file (some "bob") (some "a.pdf") (some "application/pdf") (some "AAAA") none none)
    (by decide)
  exact ⟨h.1 (by decide), h.2 "alice" (some "nosuch") (some 3) rfl (by decide)⟩

end Doklab
